import Mathlib

/-!
Verification of the grid-physics and game-state engine of a Boulder Dash
clone (TypeScript sources: `Game.ts`, `Grid.ts`, `SoundManager.ts`).

The embedding is shallow: each TypeScript method of the `Game` and `Grid`
classes is translated to a Lean function over an explicit `GameState`
record.  JavaScript numbers are modelled as `Int` where the source only
ever stores integers (grid coordinates, scores, counters) and as `ℚ`
where fractional values occur (timestamps from `performance.now()`,
camera coordinates).  `Math.random()` is modelled as an explicit stream
`r : Nat → ℚ` of values in `[0,1)` together with a cursor index that is
threaded through every draw, in source order.  The two unbounded
rejection-sampling `do … while` loops of the source (`initializeLevel`'s
diamond placement and `revealExit`) are given explicit fuel; fuel
exhaustion models the diverging executions, which never arise for the
streams used in the theorems below.
-/

/-- The `TileType` enum (`TileType.ts`, reconstructed from its uses). -/
inductive TileType where
  | EMPTY
  | DIRT
  | BOULDER
  | DIAMOND
  | WALL
  | PLAYER
  | EXIT
deriving DecidableEq

/-- The `Grid` class: a `width × height` board of tiles.  The backing
2-D array `grid[y][x]` is modelled as a total function; `getTile` and
`setTile` guard every access with `isInBounds` exactly as the source
does, so values of `tiles` outside the bounds are never observable. -/
structure Grid where
  width : Int
  height : Int
  tiles : Int → Int → TileType

/-- `Grid.isInBounds`: `x >= 0 && x < width && y >= 0 && y < height`. -/
def Grid.isInBounds (g : Grid) (x y : Int) : Bool :=
  decide (0 ≤ x) && decide (x < g.width) && decide (0 ≤ y) && decide (y < g.height)

/-- `Grid.getTile`: returns the stored tile in bounds, `WALL` outside. -/
def Grid.getTile (g : Grid) (x y : Int) : TileType :=
  if g.isInBounds x y then g.tiles x y else TileType.WALL

/-- `Grid.setTile`: writes the tile in bounds, no-op outside. -/
def Grid.setTile (g : Grid) (x y : Int) (t : TileType) : Grid :=
  if g.isInBounds x y then
    { g with tiles := fun a b => if a = x ∧ b = y then t else g.tiles a b }
  else g

/-- Full game state: every mutable field of the `Game` class that the
simulation core reads or writes (canvas/rendering handles excluded).
`warningCuePlaying` mirrors whether the looping `timeWarning` audio cue
has been started and not stopped (`soundManager.play/stop('timeWarning')`). -/
structure GameState where
  grid : Grid
  playerX : Int
  playerY : Int
  playerAnimFrame : Int
  playerFacingLeft : Bool
  lastPlayerMoveTime : ℚ
  lastTime : ℚ
  lastAnimUpdate : ℚ
  lastPhysicsUpdate : ℚ
  gameOver : Bool
  gameWon : Bool
  score : Int
  diamondsCollected : Int
  timeRemaining : Int
  isTimeWarning : Bool
  lastTimeUpdate : ℚ
  exitX : Int
  exitY : Int
  exitRevealed : Bool
  exitAppearTime : ℚ
  explosionX : Int
  explosionY : Int
  explosionRadius : Int
  explosionFrame : Int
  lastExplosionUpdate : ℚ
  cameraX : ℚ
  cameraY : ℚ
  targetCameraX : ℚ
  targetCameraY : ℚ
  warningCuePlaying : Bool

/-! Configuration constants of the `Game` class. -/

def GRID_WIDTH : Int := 100
def GRID_HEIGHT : Int := 60
def VIEWPORT_WIDTH : Int := 32
def VIEWPORT_HEIGHT : Int := 20
def TIME_LIMIT : Int := 300
def TIME_WARNING_THRESHOLD : Int := 60
def PHYSICS_UPDATE_INTERVAL : ℚ := 225
def DIAMONDS_REQUIRED : Int := 25
def POINTS_PER_DIAMOND : Int := 100
def CAMERA_LERP_SPEED : ℚ := 5
def CAMERA_DEADZONE : ℚ := 1/100

/-! ## Physics engine (`Game.updatePhysics`) -/

/-- `Game.startExplosion`: marks the game over and arms the explosion
sequencer, unless the game is already over (idempotent start).
`now` is `performance.now()`. -/
def startExplosion (now : ℚ) (s : GameState) : GameState :=
  if s.gameOver = false then
    { s with gameOver := true, explosionRadius := 0, explosionFrame := 0,
             explosionX := s.playerX, explosionY := s.playerY,
             lastExplosionUpdate := now }
  else s

/-- The body of `updatePhysics`'s double loop for one cell `(x, y)`:
falling of boulders/diamonds (with the crush grace-period check when the
player sits two cells below the origin), then boulder rolling, left roll
tried before right roll. -/
def physicsStep (now : ℚ) (s : GameState) (x y : Int) : GameState :=
  let currentTile := s.grid.getTile x y
  if currentTile = TileType.BOULDER ∨ currentTile = TileType.DIAMOND then
    if s.grid.getTile x (y + 1) = TileType.EMPTY ∧
        ¬(x = s.playerX ∧ y + 1 = s.playerY) then
      let s1 := { s with grid := (s.grid.setTile x y TileType.EMPTY).setTile x (y + 1) currentTile }
      if s1.playerX = x ∧ s1.playerY = y + 2 then
        if now - s1.lastPlayerMoveTime ≥ PHYSICS_UPDATE_INTERVAL then
          startExplosion now s1
        else s1
      else s1
    else if currentTile = TileType.BOULDER then
      if s.grid.getTile x (y + 1) ≠ TileType.EMPTY ∧
          s.grid.getTile (x - 1) y = TileType.EMPTY ∧
          s.grid.getTile (x - 1) (y + 1) = TileType.EMPTY ∧
          ¬(x - 1 = s.playerX ∧ y = s.playerY) ∧
          ¬(x - 1 = s.playerX ∧ y + 1 = s.playerY) then
        { s with grid := (s.grid.setTile x y TileType.EMPTY).setTile (x - 1) (y + 1) TileType.BOULDER }
      else if s.grid.getTile x (y + 1) ≠ TileType.EMPTY ∧
          s.grid.getTile (x + 1) y = TileType.EMPTY ∧
          s.grid.getTile (x + 1) (y + 1) = TileType.EMPTY ∧
          ¬(x + 1 = s.playerX ∧ y = s.playerY) ∧
          ¬(x + 1 = s.playerX ∧ y + 1 = s.playerY) then
        { s with grid := (s.grid.setTile x y TileType.EMPTY).setTile (x + 1) (y + 1) TileType.BOULDER }
      else s
    else s
  else s

/-- Inner loop of `updatePhysics`: processes the cells `(n-1, y)`,
`(n-2, y)`, …, `(0, y)` in that (right-to-left) order. -/
def scanRow (now : ℚ) (y : Int) : Nat → GameState → GameState
  | 0, s => s
  | n + 1, s => scanRow now y n (physicsStep now s (n : Int) y)

/-- Outer loop of `updatePhysics`: processes the rows `m-1`, `m-2`, …, `0`
in that (bottom-to-top) order, each row right-to-left over `wN` columns. -/
def scanRows (now : ℚ) (wN : Nat) : Nat → GameState → GameState
  | 0, s => s
  | m + 1, s => scanRows now wN m (scanRow now (m : Int) wN s)

/-- The full double loop of `updatePhysics`: `y` from `height - 2` down
to `0`, `x` from `width - 2` down to `0`. -/
def physicsScan (now : ℚ) (s : GameState) : GameState :=
  scanRows now (s.grid.width - 1).toNat (s.grid.height - 1).toNat s

/-- `Game.updatePhysics`: the scan followed by the end-of-scan crush
check at the player's own cell (same grace period). -/
def updatePhysics (now : ℚ) (s : GameState) : GameState :=
  let s' := physicsScan now s
  let tileAtPlayer := s'.grid.getTile s'.playerX s'.playerY
  if tileAtPlayer = TileType.BOULDER ∨ tileAtPlayer = TileType.DIAMOND then
    if now - s'.lastPlayerMoveTime ≥ PHYSICS_UPDATE_INTERVAL then
      startExplosion now s'
    else s'
  else s'

/-! ## Camera (`Game.updateCameraPosition`, `Game.updateCamera`) -/

/-- `Game.updateCameraPosition`: snap the camera to the player, clamped
to the level bounds.  `Math.floor(VIEWPORT_WIDTH / 2)` is the integer
division `VIEWPORT_WIDTH / 2` (both constants are positive integers). -/
def updateCameraPosition (s : GameState) : GameState :=
  { s with
    cameraX := ((max 0 (min (s.playerX - VIEWPORT_WIDTH / 2) (GRID_WIDTH - VIEWPORT_WIDTH)) : Int) : ℚ),
    cameraY := ((max 0 (min (s.playerY - VIEWPORT_HEIGHT / 2) (GRID_HEIGHT - VIEWPORT_HEIGHT)) : Int) : ℚ) }

/-- The clamped camera target on the x-axis:
`max(0, min(playerX - floor(VIEWPORT_WIDTH/2), GRID_WIDTH - VIEWPORT_WIDTH))`. -/
def cameraTargetX (s : GameState) : ℚ :=
  max 0 (min (((s.playerX - VIEWPORT_WIDTH / 2 : Int)) : ℚ) (((GRID_WIDTH - VIEWPORT_WIDTH : Int)) : ℚ))

/-- The clamped camera target on the y-axis. -/
def cameraTargetY (s : GameState) : ℚ :=
  max 0 (min (((s.playerY - VIEWPORT_HEIGHT / 2 : Int)) : ℚ) (((GRID_HEIGHT - VIEWPORT_HEIGHT : Int)) : ℚ))

/-- `Game.updateCamera`: smoothed camera follow.  Computes the clamped
target, moves each axis toward it proportionally to `deltaTime` when
outside the deadzone, clamps against overshoot, and re-clamps to the
level bounds. -/
def updateCamera (deltaTime : ℚ) (s : GameState) : GameState :=
  let tX : ℚ := cameraTargetX s
  let tY : ℚ := cameraTargetY s
  let dx := tX - s.cameraX
  let dy := tY - s.cameraY
  if abs dx > CAMERA_DEADZONE ∨ abs dy > CAMERA_DEADZONE then
    let moveSpeed := CAMERA_LERP_SPEED * (deltaTime / 1000)
    let newX0 := s.cameraX + dx * moveSpeed
    let newY0 := s.cameraY + dy * moveSpeed
    let newX := if dx > 0 then min newX0 tX else max newX0 tX
    let newY := if dy > 0 then min newY0 tY else max newY0 tY
    { s with targetCameraX := tX, targetCameraY := tY,
             cameraX := max 0 (min newX (((GRID_WIDTH - VIEWPORT_WIDTH : Int)) : ℚ)),
             cameraY := max 0 (min newY (((GRID_HEIGHT - VIEWPORT_HEIGHT : Int)) : ℚ)) }
  else
    { s with targetCameraX := tX, targetCameraY := tY }

/-! ## Timer (`Game.updateTime`) -/

/-- `Game.updateTime`: frozen once the game is over or won (stopping the
warning cue exactly once), otherwise decrements at most once per elapsed
1000 ms, fires the warning transition, and handles expiry. -/
def updateTime (timestamp : ℚ) (s : GameState) : GameState :=
  if s.gameOver = true ∨ s.gameWon = true then
    if s.isTimeWarning = true then
      { s with warningCuePlaying := false, isTimeWarning := false }
    else s
  else if timestamp - s.lastTimeUpdate ≥ 1000 then
    let s1 := { s with timeRemaining := s.timeRemaining - 1, lastTimeUpdate := timestamp }
    let s2 := if s1.timeRemaining ≤ TIME_WARNING_THRESHOLD ∧ s1.isTimeWarning = false then
        { s1 with isTimeWarning := true, warningCuePlaying := true }
      else s1
    if s2.timeRemaining ≤ 0 then
      { s2 with timeRemaining := 0, gameOver := true,
                warningCuePlaying := false, isTimeWarning := false }
    else s2
  else s

/-- A sequence of `updateTime` calls with the given timestamps. -/
def runTimer (s : GameState) (ts : List ℚ) : GameState :=
  ts.foldl (fun st t => updateTime t st) s

/-- Same sequence, additionally counting the `false → true` transitions
of the warning flag. -/
def runTimerCount (s : GameState) (ts : List ℚ) : GameState × Nat :=
  ts.foldl
    (fun p t =>
      (updateTime t p.1,
        p.2 + (if p.1.isTimeWarning = false ∧ (updateTime t p.1).isTimeWarning = true then 1 else 0)))
    (s, 0)

/-- The timestamps of `n` regular one-second frames after `t0`:
`t0 + 1000`, `t0 + 2000`, …, `t0 + 1000·n`. -/
def secondTicks (t0 : ℚ) (n : Nat) : List ℚ :=
  (List.range n).map (fun i => t0 + 1000 * ((i : ℚ) + 1))

/-! ## Movement resolver (`Game.handleInput` and helpers) -/

/-- The four directional intents of `handleInput` (the `'m'` mute and
`'r'` reset keys are dispatched before this logic in the source). -/
inductive ArrowKey where
  | left
  | right
  | up
  | down
deriving DecidableEq

/-- `Game.canMoveTo`: the destination must hold one of
`EMPTY`, `DIRT`, `DIAMOND`, `EXIT`. -/
def canMoveTo (s : GameState) (x y : Int) : Prop :=
  s.grid.getTile x y = TileType.EMPTY ∨ s.grid.getTile x y = TileType.DIRT ∨
    s.grid.getTile x y = TileType.DIAMOND ∨ s.grid.getTile x y = TileType.EXIT

instance (s : GameState) (x y : Int) : Decidable (canMoveTo s x y) := by
  unfold canMoveTo; infer_instance

/-- Fuel for the two rejection-sampling `do … while` loops. -/
def SAMPLE_FUEL : Nat := 1000

/-- The `do … while` loop of `Game.revealExit`: draws candidate exit
positions from the random stream `r` (cursor `k`) until one is neither
within the 2-cell box around the player nor directly below a boulder.
Returns the chosen position and the advanced cursor, or `none` if `fuel`
runs out (the source would loop forever on such a stream). -/
def findExitPos (r : Nat → ℚ) (g : Grid) (px py : Int) : Nat → Nat → Option (Int × Int × Nat)
  | 0, _ => none
  | fuel + 1, k =>
    let ex := ⌊r k * ((g.width - 4 : Int) : ℚ)⌋ + 2
    let ey := ⌊r (k + 1) * ((g.height - 4 : Int) : ℚ)⌋ + 2
    if (abs (ex - px) ≤ 2 ∧ abs (ey - py) ≤ 2) ∨ g.getTile ex (ey - 1) = TileType.BOULDER then
      findExitPos r g px py fuel (k + 2)
    else
      some (ex, ey, k + 2)

/-- `Game.revealExit`: picks the exit cell, reveals it, stamps the
appear time and writes the `EXIT` tile. -/
def revealExit (r : Nat → ℚ) (now : ℚ) (s : GameState) (k : Nat) : GameState × Nat :=
  match findExitPos r s.grid s.playerX s.playerY SAMPLE_FUEL k with
  | some (ex, ey, k') =>
    ({ s with exitX := ex, exitY := ey, exitRevealed := true, exitAppearTime := now,
              grid := s.grid.setTile ex ey TileType.EXIT }, k')
  | none => (s, k)

/-- `Game.collectDiamond`: bumps score and diamond count, and reveals
the exit when the quota is reached and it is not yet revealed. -/
def collectDiamond (r : Nat → ℚ) (now : ℚ) (s : GameState) (k : Nat) : GameState × Nat :=
  let s1 := { s with score := s.score + POINTS_PER_DIAMOND,
                     diamondsCollected := s.diamondsCollected + 1 }
  if s1.diamondsCollected ≥ DIAMONDS_REQUIRED ∧ s1.exitRevealed = false then
    revealExit r now s1 k
  else (s1, k)

/-- `Game.tryPushBoulder`: push the boulder at `(x, y)` one cell in
`direction` when the cell beyond is empty. -/
def tryPushBoulder (x y direction : Int) (g : Grid) : Grid :=
  if g.getTile x y = TileType.BOULDER ∧ g.getTile (x + direction) y = TileType.EMPTY then
    (g.setTile x y TileType.EMPTY).setTile (x + direction) y TileType.BOULDER
  else g

/-- The destination column of a directional intent (`newX`). -/
def moveTargetX (s : GameState) (key : ArrowKey) : Int :=
  match key with
  | .left => s.playerX - 1
  | .right => s.playerX + 1
  | _ => s.playerX

/-- The destination row of a directional intent (`newY`). -/
def moveTargetY (s : GameState) (key : ArrowKey) : Int :=
  match key with
  | .up => s.playerY - 1
  | .down => s.playerY + 1
  | _ => s.playerY

/-- The facing-direction update performed inside `handleInput`'s key
switch (it happens even when the move itself turns out illegal). -/
def applyFacing (key : ArrowKey) (s : GameState) : GameState :=
  match key with
  | .left => { s with playerFacingLeft := true }
  | .right => { s with playerFacingLeft := false }
  | _ => s

/-- The boulder push attempted after a horizontal move; `handleInput`
calls `tryPushBoulder(newX, newY, ±1)` where `(newX, newY)` is the
player's new position. -/
def applyPush (key : ArrowKey) (s : GameState) : GameState :=
  match key with
  | .left => { s with grid := tryPushBoulder s.playerX s.playerY (-1) s.grid }
  | .right => { s with grid := tryPushBoulder s.playerX s.playerY 1 s.grid }
  | _ => s

/-- `Game.handleInput` for a directional key: movement legality, diamond
collection, the revealed-exit victory, the actual move (destination is
cleared, position/animation/last-move time updated, camera re-snapped)
and the horizontal boulder push. -/
def handleInput (r : Nat → ℚ) (key : ArrowKey) (now : ℚ) (s : GameState) (k : Nat) :
    GameState × Nat :=
  if s.gameOver = true ∨ s.gameWon = true then (s, k)
  else
    let newX := moveTargetX s key
    let newY := moveTargetY s key
    let s0 := applyFacing key s
    if canMoveTo s0 newX newY then
      let targetTile := s0.grid.getTile newX newY
      let p1 := if targetTile = TileType.DIAMOND then collectDiamond r now s0 k else (s0, k)
      let s1 := p1.1
      if targetTile = TileType.EXIT ∧ s1.exitRevealed = true then
        ({ s1 with gameWon := true, warningCuePlaying := false }, p1.2)
      else
        let s2 := { s1 with grid := s1.grid.setTile newX newY TileType.EMPTY,
                            playerX := newX, playerY := newY,
                            playerAnimFrame := (s1.playerAnimFrame + 1) % 4,
                            lastPlayerMoveTime := now }
        let s3 := updateCameraPosition s2
        let s4 := applyPush key s3
        (s4, p1.2)
    else (s0, k)

/-! ## Level generation and reset (`Game.initializeLevel`, `Game.resetGame`) -/

/-- The ascending integer list `lo, lo+1, …, hi-1` (the range of a
`for (i = lo; i < hi; i++)` loop). -/
def ascRange (lo hi : Int) : List Int :=
  (List.range (hi - lo).toNat).map (fun i : Nat => lo + (i : Int))

/-- The wall border written by `initializeLevel`: top and bottom rows,
then left and right columns. -/
def setBorderWalls (g : Grid) : Grid :=
  let g1 := (ascRange 0 g.width).foldl
    (fun gr x => (gr.setTile x 0 TileType.WALL).setTile x (gr.height - 1) TileType.WALL) g
  (ascRange 0 g1.height).foldl
    (fun gr y => (gr.setTile 0 y TileType.WALL).setTile (gr.width - 1) y TileType.WALL) g1

/-- One interior cell of the dirt/boulder placement loop: skipped inside
the 3×3 box around the player; otherwise the first draw `< 0.7` writes
`DIRT`, else a second draw `< 0.3` writes `BOULDER`, else the cell is
left as it was.  The cursor advances by the number of draws consumed. -/
def terrainCell (r : Nat → ℚ) (px py : Int) (gk : Grid × Nat) (x y : Int) : Grid × Nat :=
  if abs (x - px) ≤ 1 ∧ abs (y - py) ≤ 1 then gk
  else if r gk.2 < 7/10 then (gk.1.setTile x y TileType.DIRT, gk.2 + 1)
  else if r (gk.2 + 1) < 3/10 then (gk.1.setTile x y TileType.BOULDER, gk.2 + 2)
  else (gk.1, gk.2 + 2)

/-- Row-major interior positions `(x, y)` for `y = 1 … h-2`,
`x = 1 … w-2`, in the loop order of `initializeLevel`. -/
def interiorCells (w h : Int) : List (Int × Int) :=
  (ascRange 1 (h - 1)).foldr
    (fun y acc => ((ascRange 1 (w - 1)).map (fun x => (x, y))) ++ acc) []

/-- The `do … while` loop drawing one diamond position: rejects positions
inside the 3×3 box around the player. -/
def sampleDiamondPos (r : Nat → ℚ) (w h px py : Int) : Nat → Nat → Option (Int × Int) × Nat
  | 0, k => (none, k)
  | fuel + 1, k =>
    let x := ⌊r k * ((w - 2 : Int) : ℚ)⌋ + 1
    let y := ⌊r (k + 1) * ((h - 2 : Int) : ℚ)⌋ + 1
    if abs (x - px) ≤ 1 ∧ abs (y - py) ≤ 1 then
      sampleDiamondPos r w h px py fuel (k + 2)
    else (some (x, y), k + 2)

/-- One iteration of the diamond-placement loop. -/
def placeDiamond (r : Nat → ℚ) (px py : Int) (gk : Grid × Nat) : Grid × Nat :=
  match sampleDiamondPos r gk.1.width gk.1.height px py SAMPLE_FUEL gk.2 with
  | (some (x, y), k') => (gk.1.setTile x y TileType.DIAMOND, k')
  | (none, k') => (gk.1, k')

/-- The 3×3 clearing of the player's spawn area (`dy` outer, `dx` inner,
each from `-1` to `1`). -/
def clearSpawnArea (g : Grid) (px py : Int) : Grid :=
  (ascRange (-1) 2).foldl
    (fun gr dy => (ascRange (-1) 2).foldl (fun gr' dx => gr'.setTile (px + dx) (py + dy) TileType.EMPTY) gr) g

/-- `Game.initializeLevel`: border walls, random player spawn, camera
snap, random dirt/boulders over the interior (leaving cells that draw
neither untouched), `DIAMONDS_REQUIRED * 1.5` rounded-down-plus-one (38)
diamond placements, and the 3×3 spawn clearing.  Operates in place on
the current grid, exactly as the source does.  Returns the new state and
the advanced random cursor. -/
def initializeLevel (r : Nat → ℚ) (s : GameState) (k : Nat) : GameState × Nat :=
  let g1 := setBorderWalls s.grid
  let px := ⌊r k * ((g1.width - 4 : Int) : ℚ)⌋ + 2
  let py := ⌊r (k + 1) * ((g1.height - 4 : Int) : ℚ)⌋ + 2
  let s1 := updateCameraPosition { s with grid := g1, playerX := px, playerY := py }
  let gk2 := (interiorCells s1.grid.width s1.grid.height).foldl
    (fun gk p => terrainCell r px py gk p.1 p.2) (s1.grid, k + 2)
  let gk3 := (List.range 38).foldl (fun gk _ => placeDiamond r px py gk) gk2
  let g4 := clearSpawnArea gk3.1 px py
  ({ s1 with grid := g4 }, gk3.2)

/-- `Game.resetGame`: stops the warning cue, clears the player's cell,
resets every scalar field, and re-runs `initializeLevel` on the same
grid object. -/
def resetGame (r : Nat → ℚ) (s : GameState) (k : Nat) : GameState × Nat :=
  let s0 := { s with
    warningCuePlaying := false,
    grid := s.grid.setTile s.playerX s.playerY TileType.EMPTY,
    score := 0, diamondsCollected := 0,
    gameOver := false, gameWon := false,
    playerX := 1, playerY := 1,
    playerAnimFrame := 0, playerFacingLeft := false,
    lastAnimUpdate := 0, lastPhysicsUpdate := 0,
    lastPlayerMoveTime := 0, lastTime := 0,
    timeRemaining := TIME_LIMIT, isTimeWarning := false, lastTimeUpdate := 0,
    exitRevealed := false, exitX := -1, exitY := -1, exitAppearTime := 0 }
  initializeLevel r s0 k

/-- Number of cells of the grid holding tile `t` (over the in-bounds
rectangle). -/
def Grid.countTile (g : Grid) (t : TileType) : Nat :=
  ∑ p ∈ (Finset.Icc 0 (g.width - 1)) ×ˢ (Finset.Icc 0 (g.height - 1)),
    if g.getTile p.1 p.2 = t then 1 else 0

/-- A game state with the given grid and player position, every clock at
zero and every flag cleared — used to instantiate theorems at concrete
inputs. -/
def mkState (g : Grid) (px py : Int) : GameState :=
  { grid := g, playerX := px, playerY := py, playerAnimFrame := 0, playerFacingLeft := false,
    lastPlayerMoveTime := 0, lastTime := 0, lastAnimUpdate := 0, lastPhysicsUpdate := 0,
    gameOver := false, gameWon := false, score := 0, diamondsCollected := 0,
    timeRemaining := TIME_LIMIT, isTimeWarning := false, lastTimeUpdate := 0,
    exitX := -1, exitY := -1, exitRevealed := false, exitAppearTime := 0,
    explosionX := 0, explosionY := 0, explosionRadius := 0, explosionFrame := 0,
    lastExplosionUpdate := 0, cameraX := 0, cameraY := 0, targetCameraX := 0,
    targetCameraY := 0, warningCuePlaying := false }

/-- 6×6 test grid: a single boulder at `(2, 1)`. -/
def wGridFall : Grid := ⟨6, 6, fun x y => if x = 2 ∧ y = 1 then TileType.BOULDER else TileType.EMPTY⟩

/-- 6×6 test grid: a boulder at `(2, 2)` resting on dirt at `(2, 3)`,
both diagonals free. -/
def wGridRoll : Grid :=
  ⟨6, 6, fun x y =>
    if x = 2 ∧ y = 2 then TileType.BOULDER
    else if x = 2 ∧ y = 3 then TileType.DIRT
    else TileType.EMPTY⟩

/-- 6×6 test grid: a wall row at `y = 0` and dirt at `(1, 1)`. -/
def wGridMixed : Grid :=
  ⟨6, 6, fun x y =>
    if y = 0 then TileType.WALL
    else if x = 1 ∧ y = 1 then TileType.DIRT
    else TileType.EMPTY⟩

/-- Invariant of a timer run started from a fresh active state: while
the game is active the warning flag tracks `timeRemaining ≤ threshold`
and the number of `false → true` warning transitions is `0` or `1`
accordingly; once the timer has expired the flag is off and at most one
transition ever happened. -/
def timerInv (p : GameState × Nat) : Prop :=
  p.1.gameWon = false ∧
    ((p.1.gameOver = false ∧ 1 ≤ p.1.timeRemaining ∧
        (p.1.isTimeWarning = true ↔ p.1.timeRemaining ≤ TIME_WARNING_THRESHOLD) ∧
        p.2 = (if p.1.isTimeWarning = true then 1 else 0)) ∨
      (p.1.gameOver = true ∧ p.1.isTimeWarning = false ∧ p.2 ≤ 1))

/-- A state whose camera sits slightly left of the level (inside the
deadzone of its target `0`): `cameraX = -1/200`, player at `(1, 1)`. -/
def wStateCam : GameState :=
  { mkState ⟨100, 60, fun _ _ => TileType.EMPTY⟩ 1 1 with cameraX := -(1/200) }

/-- 6×6 test grid: an `EXIT` tile at `(2, 1)`, everything else empty. -/
def wGridExit : Grid := ⟨6, 6, fun x y => if x = 2 ∧ y = 1 then TileType.EXIT else TileType.EMPTY⟩

/-- Active state with an (unrevealed) `EXIT` tile directly right of the
player. -/
def wStateExit : GameState := mkState wGridExit 1 1

/-- A 100×60 empty-grid state with the player at `(50, 30)` and 24
diamonds already collected (one away from the quota). -/
def wStateQuota : GameState :=
  { mkState ⟨100, 60, fun _ _ => TileType.EMPTY⟩ 50 30 with diamondsCollected := 24 }

/-- A random stream whose first two draws are `0` (spawning the player at
`(2, 2)`) and whose every later draw is `9/10`: the terrain loop then
never writes (both thresholds missed) and every diamond lands at
`(89, 53)`. -/
def wR : Nat → ℚ := fun n => if n ≤ 1 then 0 else 9/10

/-- A 100×60 grid that is empty except for a leftover `EXIT` at
`(50, 30)` — the pre-reset session's revealed exit. -/
def wStaleGrid : Grid :=
  ⟨100, 60, fun x y => if x = 50 ∧ y = 30 then TileType.EXIT else TileType.EMPTY⟩

/-- The all-empty 100×60 grid. -/
def wGridEmpty100 : Grid := ⟨100, 60, fun _ _ => TileType.EMPTY⟩

/-! ## Basic grid lemmas -/

theorem Grid.isInBounds_iff (g : Grid) (x y : Int) :
    g.isInBounds x y = true ↔ 0 ≤ x ∧ x < g.width ∧ 0 ≤ y ∧ y < g.height := by
  simp [Grid.isInBounds, and_assoc]

theorem Grid.width_setTile (g : Grid) (u v : Int) (t : TileType) :
    (g.setTile u v t).width = g.width := by
  unfold Grid.setTile; split <;> rfl

theorem Grid.height_setTile (g : Grid) (u v : Int) (t : TileType) :
    (g.setTile u v t).height = g.height := by
  unfold Grid.setTile; split <;> rfl

theorem Grid.isInBounds_setTile (g : Grid) (u v : Int) (t : TileType) (a b : Int) :
    (g.setTile u v t).isInBounds a b = g.isInBounds a b := by
  unfold Grid.isInBounds
  rw [Grid.width_setTile, Grid.height_setTile]

theorem Grid.tiles_setTile (g : Grid) (u v : Int) (t : TileType) (a b : Int) :
    (g.setTile u v t).tiles a b =
      if (a = u ∧ b = v) ∧ g.isInBounds u v = true then t else g.tiles a b := by
  unfold Grid.setTile
  by_cases huv : g.isInBounds u v = true
  · rw [if_pos huv]
    show (if a = u ∧ b = v then t else g.tiles a b) = _
    by_cases he : a = u ∧ b = v
    · rw [if_pos he, if_pos ⟨he, huv⟩]
    · rw [if_neg he, if_neg (fun h => he h.1)]
  · rw [if_neg huv, if_neg (fun h => huv h.2)]

/-- The fundamental read-after-write law for `setTile`/`getTile`. -/
theorem Grid.getTile_setTile (g : Grid) (u v : Int) (t : TileType) (a b : Int) :
    (g.setTile u v t).getTile a b =
      if a = u ∧ b = v ∧ g.isInBounds u v = true then t else g.getTile a b := by
  unfold Grid.getTile
  rw [Grid.isInBounds_setTile, Grid.tiles_setTile]
  by_cases hab : g.isInBounds a b = true
  · rw [if_pos hab, if_pos hab]
    by_cases he : a = u ∧ b = v
    · by_cases huv : g.isInBounds u v = true
      · rw [if_pos ⟨he, huv⟩, if_pos ⟨he.1, he.2, huv⟩]
      · rw [if_neg (fun h => huv h.2), if_neg (fun h => huv h.2.2)]
    · rw [if_neg (fun h => he h.1), if_neg (fun h => he ⟨h.1, h.2.1⟩)]
  · rw [if_neg hab, if_neg hab]
    have hc : ¬(a = u ∧ b = v ∧ g.isInBounds u v = true) := by
      rintro ⟨rfl, rfl, h⟩; exact hab h
    rw [if_neg hc]

/-- A cell whose read is not `WALL` is in bounds. -/
theorem Grid.isInBounds_of_getTile_ne_wall (g : Grid) (a b : Int)
    (h : g.getTile a b ≠ TileType.WALL) : g.isInBounds a b = true := by
  unfold Grid.getTile at h
  by_cases hb : g.isInBounds a b = true
  · exact hb
  · rw [if_neg hb] at h; exact absurd rfl h

theorem Grid.getTile_setTile_self (g : Grid) (u v : Int) (t : TileType)
    (h : g.isInBounds u v = true) : (g.setTile u v t).getTile u v = t := by
  rw [Grid.getTile_setTile, if_pos ⟨rfl, rfl, h⟩]

theorem Grid.getTile_write2_ne (g : Grid) (a b : Int) (t1 : TileType) (c d : Int)
    (t2 : TileType) (X Y : Int) (hi : ¬(X = a ∧ Y = b)) (ho : ¬(X = c ∧ Y = d)) :
    ((g.setTile a b t1).setTile c d t2).getTile X Y = g.getTile X Y := by
  simp only [Grid.getTile_setTile]
  rw [if_neg (fun h => ho ⟨h.1, h.2.1⟩), if_neg (fun h => hi ⟨h.1, h.2.1⟩)]

theorem Grid.getTile_write2_self (g : Grid) (a b : Int) (t1 : TileType) (c d : Int)
    (t2 : TileType) (h : g.isInBounds c d = true) :
    ((g.setTile a b t1).setTile c d t2).getTile c d = t2 := by
  apply Grid.getTile_setTile_self
  rw [Grid.isInBounds_setTile]; exact h

/-- C8: out-of-bounds reads return `WALL` and out-of-bounds writes change
nothing.  (Source: `Grid.getTile`, `Grid.setTile`, `Grid.isInBounds`.)
For every `(x,y)` outside `[0,width)×[0,height)`, `getTile x y = WALL`,
and `setTile x y t` leaves every cell of the grid (in particular every
in-bounds cell) unchanged. -/
theorem grid_out_of_bounds_total (g : Grid) (x y : Int)
    (h : ¬ (0 ≤ x ∧ x < g.width ∧ 0 ≤ y ∧ y < g.height)) :
    g.getTile x y = TileType.WALL ∧
      ∀ (t : TileType) (a b : Int), (g.setTile x y t).getTile a b = g.getTile a b := by
  have hb : g.isInBounds x y ≠ true := fun hc => h ((Grid.isInBounds_iff g x y).mp hc)
  constructor
  · unfold Grid.getTile; rw [if_neg hb]
  · intro t a b
    rw [Grid.getTile_setTile, if_neg (fun hc => hb hc.2.2)]

/-- Witness for C8 at a concrete out-of-bounds coordinate. -/
theorem grid_out_of_bounds_total_witness :
    let g : Grid := ⟨100, 60, fun _ _ => TileType.DIRT⟩
    g.getTile (-1) 5 = TileType.WALL ∧
      ∀ (t : TileType) (a b : Int), (g.setTile (-1) 5 t).getTile a b = g.getTile a b :=
  grid_out_of_bounds_total ⟨100, 60, fun _ _ => TileType.DIRT⟩ (-1) 5 (by decide)

/-! ## Characterization of one physics-step -/

theorem startExplosion_grid (now : ℚ) (s : GameState) :
    (startExplosion now s).grid = s.grid := by
  unfold startExplosion; split <;> rfl

theorem startExplosion_gameOver (now : ℚ) (s : GameState) :
    (startExplosion now s).gameOver = true := by
  unfold startExplosion
  split
  · rfl
  · rename_i h; simpa using h

theorem startExplosion_fields (now : ℚ) (s : GameState) :
    (startExplosion now s).playerX = s.playerX ∧
    (startExplosion now s).playerY = s.playerY ∧
    (startExplosion now s).lastPlayerMoveTime = s.lastPlayerMoveTime ∧
    (startExplosion now s).gameWon = s.gameWon := by
  unfold startExplosion
  split <;> exact ⟨rfl, rfl, rfl, rfl⟩

theorem physicsStep_fields (now : ℚ) (s : GameState) (x y : Int) :
    (physicsStep now s x y).playerX = s.playerX ∧
    (physicsStep now s x y).playerY = s.playerY ∧
    (physicsStep now s x y).lastPlayerMoveTime = s.lastPlayerMoveTime ∧
    (physicsStep now s x y).gameWon = s.gameWon ∧
    (physicsStep now s x y).grid.width = s.grid.width ∧
    (physicsStep now s x y).grid.height = s.grid.height := by
  unfold physicsStep
  split_ifs <;>
    simp [startExplosion, Grid.width_setTile, Grid.height_setTile] <;>
    split_ifs <;> simp [Grid.width_setTile, Grid.height_setTile]

/-- One `physicsStep` either leaves the grid alone, performs the fall
write, or performs one of the two roll writes (with the guard conditions
that held for it). -/
theorem physicsStep_grid_cases (now : ℚ) (s : GameState) (a b : Int) :
    (physicsStep now s a b).grid = s.grid ∨
    ((s.grid.getTile a b = TileType.BOULDER ∨ s.grid.getTile a b = TileType.DIAMOND) ∧
      (s.grid.getTile a (b + 1) = TileType.EMPTY ∧ ¬(a = s.playerX ∧ b + 1 = s.playerY)) ∧
      (physicsStep now s a b).grid =
        (s.grid.setTile a b TileType.EMPTY).setTile a (b + 1) (s.grid.getTile a b)) ∨
    (s.grid.getTile a b = TileType.BOULDER ∧
      (s.grid.getTile a (b + 1) ≠ TileType.EMPTY ∧
        s.grid.getTile (a - 1) b = TileType.EMPTY ∧
        s.grid.getTile (a - 1) (b + 1) = TileType.EMPTY ∧
        ¬(a - 1 = s.playerX ∧ b = s.playerY) ∧
        ¬(a - 1 = s.playerX ∧ b + 1 = s.playerY)) ∧
      (physicsStep now s a b).grid =
        (s.grid.setTile a b TileType.EMPTY).setTile (a - 1) (b + 1) TileType.BOULDER) ∨
    (s.grid.getTile a b = TileType.BOULDER ∧
      (s.grid.getTile a (b + 1) ≠ TileType.EMPTY ∧
        s.grid.getTile (a + 1) b = TileType.EMPTY ∧
        s.grid.getTile (a + 1) (b + 1) = TileType.EMPTY ∧
        ¬(a + 1 = s.playerX ∧ b = s.playerY) ∧
        ¬(a + 1 = s.playerX ∧ b + 1 = s.playerY)) ∧
      (physicsStep now s a b).grid =
        (s.grid.setTile a b TileType.EMPTY).setTile (a + 1) (b + 1) TileType.BOULDER) := by
  simp only [physicsStep]
  split_ifs <;>
    first
      | exact Or.inl rfl
      | exact Or.inl (startExplosion_grid _ _)
      | (refine Or.inr (Or.inl ⟨by assumption, by assumption, ?_⟩) <;>
          first | exact startExplosion_grid _ _ | rfl)
      | exact Or.inr (Or.inr (Or.inl ⟨by assumption, by assumption, rfl⟩))
      | exact Or.inr (Or.inr (Or.inr ⟨by assumption, by assumption, rfl⟩))

/-- One `physicsStep` either leaves `gameOver` unchanged, or sets it with
the grace period expired. -/
theorem physicsStep_gameOver_cases (now : ℚ) (s : GameState) (a b : Int) :
    (physicsStep now s a b).gameOver = s.gameOver ∨
    (now - s.lastPlayerMoveTime ≥ PHYSICS_UPDATE_INTERVAL ∧
      (physicsStep now s a b).gameOver = true) := by
  simp only [physicsStep]
  split_ifs <;>
    first
      | exact Or.inl rfl
      | exact Or.inr ⟨by assumption, startExplosion_gameOver _ _⟩

/-- Processing exactly the cell of a fallable object performs the fall,
and kills the player (grace period expired) when they sit two cells
below. -/
theorem physicsStep_at (now : ℚ) (s : GameState) (X Y : Int)
    (hBD : s.grid.getTile X Y = TileType.BOULDER ∨ s.grid.getTile X Y = TileType.DIAMOND)
    (h2 : s.grid.getTile X (Y + 1) = TileType.EMPTY)
    (hply : ¬(X = s.playerX ∧ Y + 1 = s.playerY)) :
    (physicsStep now s X Y).grid =
      (s.grid.setTile X Y TileType.EMPTY).setTile X (Y + 1) (s.grid.getTile X Y) ∧
    (s.playerX = X ∧ s.playerY = Y + 2 ∧ now - s.lastPlayerMoveTime ≥ PHYSICS_UPDATE_INTERVAL →
      (physicsStep now s X Y).gameOver = true) := by
  simp only [physicsStep]
  rw [if_pos hBD, if_pos ⟨h2, hply⟩]
  split_ifs with hcr hgr
  · exact ⟨startExplosion_grid _ _, fun _ => startExplosion_gameOver _ _⟩
  · exact ⟨rfl, fun hc => absurd hc.2.2 hgr⟩
  · exact ⟨rfl, fun hc => absurd ⟨hc.1, hc.2.1⟩ hcr⟩

/-- Steps at positions processed *before* `(X, Y)` in the scan order
(lower rows, or same row further right) do not disturb a fallable object
at `(X, Y)` with an empty cell below it. -/
theorem physicsStep_pres_before (now : ℚ) (s : GameState) (a b X Y : Int) (t : TileType)
    (ht : t = TileType.BOULDER ∨ t = TileType.DIAMOND)
    (hord : Y < b ∨ (b = Y ∧ X < a))
    (h1 : s.grid.getTile X Y = t)
    (h2 : s.grid.getTile X (Y + 1) = TileType.EMPTY) :
    (physicsStep now s a b).grid.getTile X Y = t ∧
      (physicsStep now s a b).grid.getTile X (Y + 1) = TileType.EMPTY := by
  have htE : t ≠ TileType.EMPTY := by rcases ht with rfl | rfl <;> simp
  rcases physicsStep_grid_cases now s a b with hsame
    | ⟨hBD, ⟨hbe, _⟩, heq⟩ | ⟨hcur, ⟨_, hadj, hdiag, _, _⟩, heq⟩
    | ⟨hcur, ⟨_, hadj, hdiag, _, _⟩, heq⟩
  · rw [hsame]; exact ⟨h1, h2⟩
  · rw [heq]
    constructor
    · rw [Grid.getTile_write2_ne _ _ _ _ _ _ _ _ _ (by omega) (by omega)]; exact h1
    · rw [Grid.getTile_write2_ne]
      · exact h2
      · rintro ⟨rfl, hb⟩
        rw [show b = Y + 1 by omega, h2] at hBD
        simp at hBD
      · omega
  · rw [heq]
    constructor
    · rw [Grid.getTile_write2_ne _ _ _ _ _ _ _ _ _ (by omega) (by omega)]; exact h1
    · rw [Grid.getTile_write2_ne]
      · exact h2
      · rintro ⟨rfl, hb⟩
        rw [show b = Y + 1 by omega, h2] at hcur
        simp at hcur
      · rintro ⟨hx, hy⟩
        have hb' : b = Y := by omega
        have hx' : X = a - 1 := by omega
        rw [← hx', hb'] at hadj
        rw [hadj] at h1
        exact htE h1.symm
  · rw [heq]
    constructor
    · rw [Grid.getTile_write2_ne _ _ _ _ _ _ _ _ _ (by omega) (by omega)]; exact h1
    · rw [Grid.getTile_write2_ne]
      · exact h2
      · rintro ⟨rfl, hb⟩
        rw [show b = Y + 1 by omega, h2] at hcur
        simp at hcur
      · omega

/-- Steps at positions processed *after* `(X, Y)` in the scan order
(higher rows, or same row further left) do not disturb an object that
has landed at `(X, Y + 1)`. -/
theorem physicsStep_pres_after (now : ℚ) (s : GameState) (a b X Y : Int) (t : TileType)
    (ht : t = TileType.BOULDER ∨ t = TileType.DIAMOND)
    (hord : b < Y ∨ (b = Y ∧ a < X))
    (h : s.grid.getTile X (Y + 1) = t) :
    (physicsStep now s a b).grid.getTile X (Y + 1) = t := by
  have htE : t ≠ TileType.EMPTY := by rcases ht with rfl | rfl <;> simp
  rcases physicsStep_grid_cases now s a b with hsame
    | ⟨hBD, ⟨hbe, _⟩, heq⟩ | ⟨hcur, ⟨_, hadj, hdiag, _, _⟩, heq⟩
    | ⟨hcur, ⟨_, hadj, hdiag, _, _⟩, heq⟩
  · rw [hsame]; exact h
  · rw [heq, Grid.getTile_write2_ne _ _ _ _ _ _ _ _ _ (by omega) (by omega)]; exact h
  · rw [heq, Grid.getTile_write2_ne _ _ _ _ _ _ _ _ _ (by omega) (by omega)]; exact h
  · rw [heq]
    rw [Grid.getTile_write2_ne]
    · exact h
    · omega
    · rintro ⟨hx, hy⟩
      have hb' : b = Y := by omega
      have hx' : X = a + 1 := by omega
      rw [← hx'] at hdiag
      rw [show b + 1 = Y + 1 by omega] at hdiag
      rw [hdiag] at h
      exact htE h.symm

/-! ## Scan-order induction principles -/

theorem scanRow_preserve {P : GameState → Prop} (now : ℚ) (y : Int) :
    ∀ (n : Nat) (s : GameState),
      (∀ (s' : GameState) (j : Nat), j < n → P s' → P (physicsStep now s' (j : Int) y)) →
      P s → P (scanRow now y n s)
  | 0, _, _, hP => hP
  | n + 1, s, hstep, hP =>
    scanRow_preserve now y n (physicsStep now s (n : Int) y)
      (fun s' j hj => hstep s' j (Nat.lt_succ_of_lt hj))
      (hstep s n (Nat.lt_succ_self n) hP)

theorem scanRows_preserve {P : GameState → Prop} (now : ℚ) (wN : Nat) :
    ∀ (m : Nat) (s : GameState),
      (∀ (s' : GameState) (i j : Nat), i < m → j < wN →
        P s' → P (physicsStep now s' (j : Int) (i : Int))) →
      P s → P (scanRows now wN m s)
  | 0, _, _, hP => hP
  | m + 1, s, hstep, hP =>
    scanRows_preserve now wN m (scanRow now (m : Int) wN s)
      (fun s' i j hi hj => hstep s' i j (Nat.lt_succ_of_lt hi) hj)
      (scanRow_preserve now (m : Int) wN s
        (fun s' j hj => hstep s' m j (Nat.lt_succ_self m) hj) hP)

theorem scanRow_phase {P1 P2 : GameState → Prop} (now : ℚ) (y : Int) (x : Nat) :
    ∀ (n : Nat) (s : GameState), x < n →
      (∀ (s' : GameState) (j : Nat), x < j → j < n → P1 s' → P1 (physicsStep now s' (j : Int) y)) →
      (∀ s' : GameState, P1 s' → P2 (physicsStep now s' (x : Int) y)) →
      (∀ (s' : GameState) (j : Nat), j < x → P2 s' → P2 (physicsStep now s' (j : Int) y)) →
      P1 s → P2 (scanRow now y n s) := by
  intro n
  induction n with
  | zero => intro s hx; omega
  | succ n ih =>
    intro s hx hB hC hD hP1
    by_cases hxe : x = n
    · subst hxe
      show P2 (scanRow now y x (physicsStep now s (x : Int) y))
      exact scanRow_preserve now y x _ (fun s' j hj => hD s' j hj) (hC s hP1)
    · have hxn : x < n := by omega
      show P2 (scanRow now y n (physicsStep now s (n : Int) y))
      exact ih _ hxn (fun s' j h1 h2 => hB s' j h1 (Nat.lt_succ_of_lt h2)) hC hD
        (hB s n hxn (Nat.lt_succ_self n) hP1)

theorem scanRows_phase {P1 P2 : GameState → Prop} (now : ℚ) (wN : Nat) (yN : Nat) :
    ∀ (m : Nat) (s : GameState), yN < m →
      (∀ (s' : GameState) (i j : Nat), yN < i → i < m → j < wN →
        P1 s' → P1 (physicsStep now s' (j : Int) (i : Int))) →
      (∀ s' : GameState, P1 s' → P2 (scanRow now (yN : Int) wN s')) →
      (∀ (s' : GameState) (i j : Nat), i < yN → j < wN →
        P2 s' → P2 (physicsStep now s' (j : Int) (i : Int))) →
      P1 s → P2 (scanRows now wN m s) := by
  intro m
  induction m with
  | zero => intro s hy; omega
  | succ m ih =>
    intro s hy hA hRow hE hP1
    by_cases hye : yN = m
    · subst hye
      show P2 (scanRows now wN yN (scanRow now (yN : Int) wN s))
      exact scanRows_preserve now wN yN _ (fun s' i j hi hj => hE s' i j hi hj) (hRow s hP1)
    · have hym : yN < m := by omega
      show P2 (scanRows now wN m (scanRow now (m : Int) wN s))
      refine ih _ hym (fun s' i j h1 h2 hj => hA s' i j h1 (Nat.lt_succ_of_lt h2) hj) hRow hE ?_
      exact scanRow_preserve now (m : Int) wN s
        (fun s' j hj => hA s' m j hym (Nat.lt_succ_self m) hj) hP1

theorem updatePhysics_grid (now : ℚ) (s : GameState) :
    (updatePhysics now s).grid = (physicsScan now s).grid := by
  simp only [updatePhysics]
  split_ifs <;> first | rfl | exact startExplosion_grid _ _

theorem physicsScan_fields (now : ℚ) (s : GameState) :
    (physicsScan now s).playerX = s.playerX ∧
    (physicsScan now s).playerY = s.playerY ∧
    (physicsScan now s).lastPlayerMoveTime = s.lastPlayerMoveTime ∧
    (physicsScan now s).gameWon = s.gameWon ∧
    (physicsScan now s).grid.width = s.grid.width ∧
    (physicsScan now s).grid.height = s.grid.height := by
  unfold physicsScan
  refine @scanRows_preserve
    (fun st => st.playerX = s.playerX ∧ st.playerY = s.playerY ∧
      st.lastPlayerMoveTime = s.lastPlayerMoveTime ∧ st.gameWon = s.gameWon ∧
      st.grid.width = s.grid.width ∧ st.grid.height = s.grid.height)
    now (s.grid.width - 1).toNat (s.grid.height - 1).toNat s
    (fun s' i j _ _ hP => ?_) ⟨rfl, rfl, rfl, rfl, rfl, rfl⟩
  obtain ⟨f1, f2, f3, f4, f5, f6⟩ := physicsStep_fields now s' (j : Int) (i : Int)
  exact ⟨f1.trans hP.1, f2.trans hP.2.1, f3.trans hP.2.2.1, f4.trans hP.2.2.2.1,
    f5.trans hP.2.2.2.2.1, f6.trans hP.2.2.2.2.2⟩

/-- C1: a Boulder/Diamond in the scanned region with `EMPTY` directly
below it (and no player there) ends the physics update exactly one cell
lower: the post-update grid holds the object at `(X, Y + 1)` — it fell
once and (because rows are processed bottom-to-top) did not fall again
within the same tick.  The column hypothesis `X ≤ width - 2` restricts
to the columns the scan visits; in the game the excluded border column
always holds `WALL`, where the tile hypothesis can never hold. -/
theorem falling_moves_down_exactly_one (now : ℚ) (s : GameState) (X Y : Int) (t : TileType)
    (ht : t = TileType.BOULDER ∨ t = TileType.DIAMOND)
    (h1 : s.grid.getTile X Y = t)
    (h2 : s.grid.getTile X (Y + 1) = TileType.EMPTY)
    (hply : ¬(X = s.playerX ∧ Y + 1 = s.playerY))
    (hX : X ≤ s.grid.width - 2) :
    (updatePhysics now s).grid.getTile X (Y + 1) = t := by
  have htW : t ≠ TileType.WALL := by rcases ht with rfl | rfl <;> simp
  have hb1 : s.grid.isInBounds X Y = true :=
    Grid.isInBounds_of_getTile_ne_wall s.grid X Y (by rw [h1]; exact htW)
  have hb2 : s.grid.isInBounds X (Y + 1) = true :=
    Grid.isInBounds_of_getTile_ne_wall s.grid X (Y + 1) (by rw [h2]; simp)
  obtain ⟨hx0, hxw, hy0, hyh⟩ := (Grid.isInBounds_iff _ _ _).mp hb1
  obtain ⟨-, -, -, hy1h⟩ := (Grid.isInBounds_iff _ _ _).mp hb2
  have hXN : ((X.toNat : Nat) : Int) = X := Int.toNat_of_nonneg hx0
  have hYN : ((Y.toNat : Nat) : Int) = Y := Int.toNat_of_nonneg hy0
  have hxlt : X.toNat < (s.grid.width - 1).toNat := by omega
  have hylt : Y.toNat < (s.grid.height - 1).toNat := by omega
  rw [updatePhysics_grid]
  unfold physicsScan
  refine @scanRows_phase
    (fun st => st.grid.getTile X Y = t ∧ st.grid.getTile X (Y + 1) = TileType.EMPTY ∧
      st.playerX = s.playerX ∧ st.playerY = s.playerY)
    (fun st => st.grid.getTile X (Y + 1) = t)
    now (s.grid.width - 1).toNat Y.toNat (s.grid.height - 1).toNat s hylt
    ?_ ?_ ?_ ⟨h1, h2, rfl, rfl⟩
  · -- rows below Y (processed earlier) preserve the pair
    rintro s' i j hyi _ _ ⟨hp1, hp2, hpx, hpy⟩
    obtain ⟨q1, q2⟩ := physicsStep_pres_before now s' (j : Int) (i : Int) X Y t ht
      (Or.inl (by omega)) hp1 hp2
    obtain ⟨f1, f2, -⟩ := physicsStep_fields now s' (j : Int) (i : Int)
    exact ⟨q1, q2, f1.trans hpx, f2.trans hpy⟩
  · -- row Y itself: cells right of X preserve, the step at X drops the
    -- object one cell, cells left of X leave the landed object alone
    intro s' hP1
    rw [hYN]
    refine @scanRow_phase
      (fun st => st.grid.getTile X Y = t ∧ st.grid.getTile X (Y + 1) = TileType.EMPTY ∧
        st.playerX = s.playerX ∧ st.playerY = s.playerY)
      (fun st => st.grid.getTile X (Y + 1) = t)
      now Y X.toNat (s.grid.width - 1).toNat s' hxlt ?_ ?_ ?_ hP1
    · rintro s'' j hxj _ ⟨hp1, hp2, hpx, hpy⟩
      obtain ⟨q1, q2⟩ := physicsStep_pres_before now s'' (j : Int) Y X Y t ht
        (Or.inr ⟨rfl, by omega⟩) hp1 hp2
      obtain ⟨f1, f2, -⟩ := physicsStep_fields now s'' (j : Int) Y
      exact ⟨q1, q2, f1.trans hpx, f2.trans hpy⟩
    · rintro s'' ⟨hp1, hp2, hpx, hpy⟩
      rw [hXN]
      have hply' : ¬(X = s''.playerX ∧ Y + 1 = s''.playerY) := by
        rw [hpx, hpy]; exact hply
      have hstep := physicsStep_at now s'' X Y (by rw [hp1]; exact ht) hp2 hply'
      rw [hstep.1]
      have hbb : s''.grid.isInBounds X (Y + 1) = true :=
        Grid.isInBounds_of_getTile_ne_wall s''.grid X (Y + 1) (by rw [hp2]; simp)
      rw [Grid.getTile_write2_self _ _ _ _ _ _ _ hbb, hp1]
    · rintro s'' j hjx hP2
      exact physicsStep_pres_after now s'' (j : Int) Y X Y t ht (Or.inr ⟨rfl, by omega⟩) hP2
  · -- rows above Y (processed later) leave the landed object alone
    rintro s' i j hiy _ hP2
    exact physicsStep_pres_after now s' (j : Int) (i : Int) X Y t ht (Or.inl (by omega)) hP2

theorem physicsStep_gameOver_mono (now : ℚ) (s : GameState) (a b : Int)
    (h : s.gameOver = true) : (physicsStep now s a b).gameOver = true := by
  rcases physicsStep_gameOver_cases now s a b with hc | hc
  · rw [hc]; exact h
  · exact hc.2

theorem updatePhysics_gameOver_mono (now : ℚ) (s : GameState)
    (h : (physicsScan now s).gameOver = true) : (updatePhysics now s).gameOver = true := by
  simp only [updatePhysics]
  split_ifs <;> first | exact startExplosion_gameOver _ _ | exact h

/-- C2: the crush grace period.  (a) If the player moved strictly less
than one physics interval ago, `updatePhysics` never flips `gameOver`:
neither a fall landing above the player nor an object at the player's
own cell kills.  (b) If the player has been stationary for at least one
interval and the post-scan grid holds a Boulder/Diamond at the player's
cell, the player is always killed.  (c) Under the same stale condition,
an object two cells above the player (`Y0 + 2 = playerY`) with an empty
cell between falls during the scan and always kills the player. -/
theorem crush_grace_period (now : ℚ) (s : GameState) :
    (now - s.lastPlayerMoveTime < PHYSICS_UPDATE_INTERVAL →
      (updatePhysics now s).gameOver = s.gameOver) ∧
    (now - s.lastPlayerMoveTime ≥ PHYSICS_UPDATE_INTERVAL →
      ((physicsScan now s).grid.getTile s.playerX s.playerY = TileType.BOULDER ∨
        (physicsScan now s).grid.getTile s.playerX s.playerY = TileType.DIAMOND) →
      (updatePhysics now s).gameOver = true) ∧
    (∀ Y0 : Int, now - s.lastPlayerMoveTime ≥ PHYSICS_UPDATE_INTERVAL →
      (s.grid.getTile s.playerX Y0 = TileType.BOULDER ∨
        s.grid.getTile s.playerX Y0 = TileType.DIAMOND) →
      s.grid.getTile s.playerX (Y0 + 1) = TileType.EMPTY →
      Y0 + 2 = s.playerY →
      s.playerX ≤ s.grid.width - 2 →
      (updatePhysics now s).gameOver = true) := by
  obtain ⟨hfx, hfy, hft, -, -, -⟩ := physicsScan_fields now s
  refine ⟨?_, ?_, ?_⟩
  · -- (a) grace period: no kill anywhere in the update
    intro hlt
    have hscan : (physicsScan now s).gameOver = s.gameOver ∧
        (physicsScan now s).lastPlayerMoveTime = s.lastPlayerMoveTime := by
      unfold physicsScan
      refine @scanRows_preserve
        (fun st => st.gameOver = s.gameOver ∧ st.lastPlayerMoveTime = s.lastPlayerMoveTime)
        now (s.grid.width - 1).toNat (s.grid.height - 1).toNat s
        (fun s' i j _ _ hP => ?_) ⟨rfl, rfl⟩
      obtain ⟨f1, f2, f3, -⟩ := physicsStep_fields now s' (j : Int) (i : Int)
      rcases physicsStep_gameOver_cases now s' (j : Int) (i : Int) with hc | hc
      · exact ⟨hc.trans hP.1, f3.trans hP.2⟩
      · rw [hP.2] at hc
        exact absurd hc.1 (not_le.mpr hlt)
    simp only [updatePhysics]
    split_ifs with hT hG
    · rw [hscan.2] at hG
      exact absurd hG (not_le.mpr hlt)
    · exact hscan.1
    · exact hscan.1
  · -- (b) stale player under an object at their own cell: always killed
    intro hge htile
    simp only [updatePhysics]
    rw [hfx, hfy, hft]
    rw [if_pos htile, if_pos hge]
    exact startExplosion_gameOver _ _
  · -- (c) stale player two cells below a fallable object: always killed
    intro Y0 hge h1 h2 hY0 hXw
    have hb1 : s.grid.isInBounds s.playerX Y0 = true := by
      apply Grid.isInBounds_of_getTile_ne_wall
      rcases h1 with hh | hh <;> rw [hh] <;> simp
    have hb2 : s.grid.isInBounds s.playerX (Y0 + 1) = true :=
      Grid.isInBounds_of_getTile_ne_wall s.grid _ _ (by rw [h2]; simp)
    obtain ⟨hx0, hxw, hy0, hyh⟩ := (Grid.isInBounds_iff _ _ _).mp hb1
    obtain ⟨-, -, -, hy1h⟩ := (Grid.isInBounds_iff _ _ _).mp hb2
    have hXN : ((s.playerX.toNat : Nat) : Int) = s.playerX := Int.toNat_of_nonneg hx0
    have hYN : ((Y0.toNat : Nat) : Int) = Y0 := Int.toNat_of_nonneg hy0
    have hxlt : s.playerX.toNat < (s.grid.width - 1).toNat := by omega
    have hylt : Y0.toNat < (s.grid.height - 1).toNat := by omega
    apply updatePhysics_gameOver_mono
    unfold physicsScan
    set t := s.grid.getTile s.playerX Y0 with hts
    have ht : t = TileType.BOULDER ∨ t = TileType.DIAMOND := h1
    refine @scanRows_phase
      (fun st => st.grid.getTile s.playerX Y0 = t ∧
        st.grid.getTile s.playerX (Y0 + 1) = TileType.EMPTY ∧
        st.playerX = s.playerX ∧ st.playerY = s.playerY ∧
        st.lastPlayerMoveTime = s.lastPlayerMoveTime)
      (fun st => st.gameOver = true)
      now (s.grid.width - 1).toNat Y0.toNat (s.grid.height - 1).toNat s hylt
      ?_ ?_ ?_ ⟨rfl, h2, rfl, rfl, rfl⟩
    · rintro s' i j hyi _ _ ⟨hp1, hp2, hpx, hpy, hpt⟩
      obtain ⟨q1, q2⟩ := physicsStep_pres_before now s' (j : Int) (i : Int) s.playerX Y0 t ht
        (Or.inl (by omega)) hp1 hp2
      obtain ⟨f1, f2, f3, -⟩ := physicsStep_fields now s' (j : Int) (i : Int)
      exact ⟨q1, q2, f1.trans hpx, f2.trans hpy, f3.trans hpt⟩
    · intro s' hP1
      rw [hYN]
      refine @scanRow_phase
        (fun st => st.grid.getTile s.playerX Y0 = t ∧
          st.grid.getTile s.playerX (Y0 + 1) = TileType.EMPTY ∧
          st.playerX = s.playerX ∧ st.playerY = s.playerY ∧
          st.lastPlayerMoveTime = s.lastPlayerMoveTime)
        (fun st => st.gameOver = true)
        now Y0 s.playerX.toNat (s.grid.width - 1).toNat s' hxlt ?_ ?_ ?_ hP1
      · rintro s'' j hxj _ ⟨hp1, hp2, hpx, hpy, hpt⟩
        obtain ⟨q1, q2⟩ := physicsStep_pres_before now s'' (j : Int) Y0 s.playerX Y0 t ht
          (Or.inr ⟨rfl, by omega⟩) hp1 hp2
        obtain ⟨f1, f2, f3, -⟩ := physicsStep_fields now s'' (j : Int) Y0
        exact ⟨q1, q2, f1.trans hpx, f2.trans hpy, f3.trans hpt⟩
      · rintro s'' ⟨hp1, hp2, hpx, hpy, hpt⟩
        rw [hXN]
        have hply' : ¬(s.playerX = s''.playerX ∧ Y0 + 1 = s''.playerY) := by
          rw [hpx, hpy]; omega
        have hstep := physicsStep_at now s'' s.playerX Y0 (by rw [hp1]; exact ht) hp2 hply'
        exact hstep.2 ⟨by rw [hpx], by rw [hpy]; omega, by rw [hpt]; exact hge⟩
      · rintro s'' j hjx hP2
        exact physicsStep_gameOver_mono now s'' (j : Int) Y0 hP2
    · rintro s' i j hiy _ hP2
      exact physicsStep_gameOver_mono now s' (j : Int) (i : Int) hP2

/-- C7: when a boulder cannot fall and both rolls are legal, the physics
step always takes the left roll — a single diagonal write to
`(X-1, Y+1)` — and the right-roll destination cell is left untouched. -/
theorem roll_prefers_left (now : ℚ) (s : GameState) (X Y : Int)
    (hcur : s.grid.getTile X Y = TileType.BOULDER)
    (hblock : s.grid.getTile X (Y + 1) ≠ TileType.EMPTY)
    (hlA : s.grid.getTile (X - 1) Y = TileType.EMPTY)
    (hlB : s.grid.getTile (X - 1) (Y + 1) = TileType.EMPTY)
    (hlp1 : ¬(X - 1 = s.playerX ∧ Y = s.playerY))
    (hlp2 : ¬(X - 1 = s.playerX ∧ Y + 1 = s.playerY))
    (hrA : s.grid.getTile (X + 1) Y = TileType.EMPTY)
    (hrB : s.grid.getTile (X + 1) (Y + 1) = TileType.EMPTY)
    (hrp1 : ¬(X + 1 = s.playerX ∧ Y = s.playerY))
    (hrp2 : ¬(X + 1 = s.playerX ∧ Y + 1 = s.playerY)) :
    (physicsStep now s X Y).grid =
      (s.grid.setTile X Y TileType.EMPTY).setTile (X - 1) (Y + 1) TileType.BOULDER ∧
    (physicsStep now s X Y).grid.getTile (X + 1) (Y + 1) = TileType.EMPTY := by
  have hmain : (physicsStep now s X Y).grid =
      (s.grid.setTile X Y TileType.EMPTY).setTile (X - 1) (Y + 1) TileType.BOULDER := by
    simp only [physicsStep]
    rw [if_pos (Or.inl hcur), if_neg (fun hc => hblock hc.1), if_pos hcur,
      if_pos ⟨hblock, hlA, hlB, hlp1, hlp2⟩]
  refine ⟨hmain, ?_⟩
  rw [hmain, Grid.getTile_write2_ne _ _ _ _ _ _ _ _ _ (by omega) (by omega)]
  exact hrB

/-! ## Tile conservation (counting) -/

theorem Grid.mem_box_iff (g : Grid) (p : Int × Int) :
    (p ∈ (Finset.Icc 0 (g.width - 1)) ×ˢ (Finset.Icc 0 (g.height - 1))) ↔
      g.isInBounds p.1 p.2 = true := by
  rw [Finset.mem_product, Finset.mem_Icc, Finset.mem_Icc, Grid.isInBounds_iff]
  omega

/-- Moving one tile from an occupied cell to an `EMPTY` cell preserves
every tile count. -/
theorem Grid.countTile_move (g : Grid) (ax ay bx by2 : Int) (t u : TileType)
    (ha : g.getTile ax ay = t) (hb : g.getTile bx by2 = TileType.EMPTY)
    (hne : ¬(ax = bx ∧ ay = by2)) (htW : t ≠ TileType.WALL) :
    ((g.setTile ax ay TileType.EMPTY).setTile bx by2 t).countTile u = g.countTile u := by
  have hinA : g.isInBounds ax ay = true :=
    Grid.isInBounds_of_getTile_ne_wall g ax ay (by rw [ha]; exact htW)
  have hinB : g.isInBounds bx by2 = true :=
    Grid.isInBounds_of_getTile_ne_wall g bx by2 (by rw [hb]; simp)
  have hW : ((g.setTile ax ay TileType.EMPTY).setTile bx by2 t).width = g.width := by
    rw [Grid.width_setTile, Grid.width_setTile]
  have hH : ((g.setTile ax ay TileType.EMPTY).setTile bx by2 t).height = g.height := by
    rw [Grid.height_setTile, Grid.height_setTile]
  unfold Grid.countTile
  rw [hW, hH]
  have hpa : ((ax, ay) : Int × Int) ∈ (Finset.Icc (0:Int) (g.width - 1)) ×ˢ (Finset.Icc (0:Int) (g.height - 1)) :=
    (Grid.mem_box_iff g (ax, ay)).mpr hinA
  have hpb : ((bx, by2) : Int × Int) ∈ (Finset.Icc (0:Int) (g.width - 1)) ×ˢ (Finset.Icc (0:Int) (g.height - 1)) :=
    (Grid.mem_box_iff g (bx, by2)).mpr hinB
  have hpair_ne : ((ax, ay) : Int × Int) ≠ (bx, by2) := by
    intro hc
    exact hne ⟨congrArg Prod.fst hc, congrArg Prod.snd hc⟩
  have hsub : ({(ax, ay), (bx, by2)} : Finset (Int × Int)) ⊆
      (Finset.Icc (0:Int) (g.width - 1)) ×ˢ (Finset.Icc (0:Int) (g.height - 1)) := by
    intro p hp
    rcases Finset.mem_insert.mp hp with rfl | hp'
    · exact hpa
    · rw [Finset.mem_singleton.mp hp']; exact hpb
  have hva : ((g.setTile ax ay TileType.EMPTY).setTile bx by2 t).getTile ax ay = TileType.EMPTY := by
    rw [Grid.getTile_setTile, if_neg (fun hc => hne ⟨hc.1, hc.2.1⟩)]
    exact Grid.getTile_setTile_self g ax ay TileType.EMPTY hinA
  have hvb : ((g.setTile ax ay TileType.EMPTY).setTile bx by2 t).getTile bx by2 = t :=
    Grid.getTile_write2_self g ax ay TileType.EMPTY bx by2 t hinB
  calc
    ∑ p ∈ (Finset.Icc (0:Int) (g.width - 1)) ×ˢ (Finset.Icc (0:Int) (g.height - 1)),
        (if ((g.setTile ax ay TileType.EMPTY).setTile bx by2 t).getTile p.1 p.2 = u then 1 else 0)
      = (∑ p ∈ ((Finset.Icc (0:Int) (g.width - 1)) ×ˢ (Finset.Icc (0:Int) (g.height - 1))) \ {(ax, ay), (bx, by2)},
          (if ((g.setTile ax ay TileType.EMPTY).setTile bx by2 t).getTile p.1 p.2 = u then 1 else 0)) +
        ∑ p ∈ ({(ax, ay), (bx, by2)} : Finset (Int × Int)),
          (if ((g.setTile ax ay TileType.EMPTY).setTile bx by2 t).getTile p.1 p.2 = u then 1 else 0) :=
      (Finset.sum_sdiff hsub).symm
    _ = (∑ p ∈ ((Finset.Icc (0:Int) (g.width - 1)) ×ˢ (Finset.Icc (0:Int) (g.height - 1))) \ {(ax, ay), (bx, by2)},
          (if g.getTile p.1 p.2 = u then 1 else 0)) +
        ∑ p ∈ ({(ax, ay), (bx, by2)} : Finset (Int × Int)),
          (if g.getTile p.1 p.2 = u then 1 else 0) := by
      congr 1
      · refine Finset.sum_congr rfl (fun p hp => ?_)
        obtain ⟨-, hnot⟩ := Finset.mem_sdiff.mp hp
        have h1 : p ≠ (ax, ay) := fun hc => hnot (by rw [hc]; exact Finset.mem_insert_self _ _)
        have h2 : p ≠ (bx, by2) := fun hc =>
          hnot (by rw [hc]; exact Finset.mem_insert_of_mem (Finset.mem_singleton_self _))
        rw [Grid.getTile_write2_ne _ _ _ _ _ _ _ _ _
          (fun hc => h1 (Prod.ext hc.1 hc.2)) (fun hc => h2 (Prod.ext hc.1 hc.2))]
      · rw [Finset.sum_pair hpair_ne, Finset.sum_pair hpair_ne]
        rw [hva, hvb, ha, hb]
        omega
    _ = ∑ p ∈ (Finset.Icc (0:Int) (g.width - 1)) ×ˢ (Finset.Icc (0:Int) (g.height - 1)),
          (if g.getTile p.1 p.2 = u then 1 else 0) := Finset.sum_sdiff hsub

theorem physicsStep_countTile (now : ℚ) (s : GameState) (a b : Int) (u : TileType) :
    (physicsStep now s a b).grid.countTile u = s.grid.countTile u := by
  rcases physicsStep_grid_cases now s a b with hsame
    | ⟨hBD, ⟨hbe, -⟩, heq⟩ | ⟨hcur, ⟨-, -, hdiag, -, -⟩, heq⟩
    | ⟨hcur, ⟨-, -, hdiag, -, -⟩, heq⟩
  · rw [hsame]
  · rw [heq]
    exact Grid.countTile_move s.grid a b a (b + 1) _ u rfl hbe (by omega)
      (by rcases hBD with hc | hc <;> rw [hc] <;> simp)
  · rw [heq]
    exact Grid.countTile_move s.grid a b (a - 1) (b + 1) TileType.BOULDER u hcur hdiag
      (by omega) (by simp)
  · rw [heq]
    exact Grid.countTile_move s.grid a b (a + 1) (b + 1) TileType.BOULDER u hcur hdiag
      (by omega) (by simp)

theorem physicsStep_cell_fixed (now : ℚ) (s : GameState) (a b X Y : Int) (v : TileType)
    (hv : v = TileType.WALL ∨ v = TileType.DIRT ∨ v = TileType.EXIT)
    (h : s.grid.getTile X Y = v) :
    (physicsStep now s a b).grid.getTile X Y = v := by
  rcases physicsStep_grid_cases now s a b with hsame
    | ⟨hBD, ⟨hbe, -⟩, heq⟩ | ⟨hcur, ⟨-, hadj, hdiag, -, -⟩, heq⟩
    | ⟨hcur, ⟨-, hadj, hdiag, -, -⟩, heq⟩
  · rw [hsame]; exact h
  · rw [heq]
    rw [Grid.getTile_write2_ne]
    · exact h
    · rintro ⟨rfl, rfl⟩
      rcases hBD with hc | hc <;> rw [h] at hc <;> subst hc <;> simp at hv
    · rintro ⟨rfl, rfl⟩
      rw [h] at hbe; subst hbe; simp at hv
  · rw [heq]
    rw [Grid.getTile_write2_ne]
    · exact h
    · rintro ⟨rfl, rfl⟩
      rw [h] at hcur; subst hcur; simp at hv
    · rintro ⟨rfl, rfl⟩
      rw [h] at hdiag; subst hdiag; simp at hv
  · rw [heq]
    rw [Grid.getTile_write2_ne]
    · exact h
    · rintro ⟨rfl, rfl⟩
      rw [h] at hcur; subst hcur; simp at hv
    · rintro ⟨rfl, rfl⟩
      rw [h] at hdiag; subst hdiag; simp at hv

/-- C10: one full physics update leaves every `WALL`, `DIRT` and `EXIT`
cell unchanged and preserves the number of `BOULDER` and of `DIAMOND`
tiles: objects only move (into previously empty cells), they are never
created, destroyed or merged. -/
theorem physics_conserves_tiles (now : ℚ) (s : GameState) :
    (∀ (X Y : Int) (v : TileType), (v = TileType.WALL ∨ v = TileType.DIRT ∨ v = TileType.EXIT) →
      s.grid.getTile X Y = v → (updatePhysics now s).grid.getTile X Y = v) ∧
    (updatePhysics now s).grid.countTile TileType.BOULDER = s.grid.countTile TileType.BOULDER ∧
    (updatePhysics now s).grid.countTile TileType.DIAMOND = s.grid.countTile TileType.DIAMOND := by
  have hscan : (∀ (X Y : Int) (v : TileType),
      (v = TileType.WALL ∨ v = TileType.DIRT ∨ v = TileType.EXIT) →
      s.grid.getTile X Y = v → (physicsScan now s).grid.getTile X Y = v) ∧
      (physicsScan now s).grid.countTile TileType.BOULDER = s.grid.countTile TileType.BOULDER ∧
      (physicsScan now s).grid.countTile TileType.DIAMOND = s.grid.countTile TileType.DIAMOND := by
    unfold physicsScan
    refine @scanRows_preserve
      (fun st => (∀ (X Y : Int) (v : TileType),
        (v = TileType.WALL ∨ v = TileType.DIRT ∨ v = TileType.EXIT) →
        s.grid.getTile X Y = v → st.grid.getTile X Y = v) ∧
        st.grid.countTile TileType.BOULDER = s.grid.countTile TileType.BOULDER ∧
        st.grid.countTile TileType.DIAMOND = s.grid.countTile TileType.DIAMOND)
      now (s.grid.width - 1).toNat (s.grid.height - 1).toNat s
      (fun s' i j _ _ hP => ?_) ⟨fun _ _ _ _ h => h, rfl, rfl⟩
    refine ⟨fun X Y v hv h => ?_, ?_, ?_⟩
    · exact physicsStep_cell_fixed now s' (j : Int) (i : Int) X Y v hv (hP.1 X Y v hv h)
    · exact (physicsStep_countTile now s' (j : Int) (i : Int) TileType.BOULDER).trans hP.2.1
    · exact (physicsStep_countTile now s' (j : Int) (i : Int) TileType.DIAMOND).trans hP.2.2
  rw [updatePhysics_grid]
  exact hscan

/-- Witness for C1: the boulder at `(2, 1)` of `wGridFall` is at `(2, 2)`
after one physics update. -/
theorem falling_moves_down_exactly_one_witness :
    (updatePhysics 0 (mkState wGridFall 4 4)).grid.getTile 2 2 = TileType.BOULDER :=
  falling_moves_down_exactly_one 0 (mkState wGridFall 4 4) 2 1 TileType.BOULDER
    (Or.inl rfl) (by decide) (by decide) (by decide) (by decide)

/-- Witness for C2: a player who moved 100 ms ago survives the update
under a falling boulder; the same player stationary for 225 ms dies. -/
theorem crush_grace_period_witness :
    (updatePhysics 100 (mkState wGridFall 2 3)).gameOver = (mkState wGridFall 2 3).gameOver ∧
    (updatePhysics 225 (mkState wGridFall 2 3)).gameOver = true :=
  ⟨(crush_grace_period 100 (mkState wGridFall 2 3)).1
      (by norm_num [PHYSICS_UPDATE_INTERVAL, mkState]),
    (crush_grace_period 225 (mkState wGridFall 2 3)).2.2 1
      (by norm_num [PHYSICS_UPDATE_INTERVAL, mkState])
      (Or.inl (by decide)) (by decide) (by decide) (by decide)⟩

/-- Witness for C7: the boulder of `wGridRoll` rolls to the left. -/
theorem roll_prefers_left_witness :
    (physicsStep 0 (mkState wGridRoll 5 5) 2 2).grid =
      ((mkState wGridRoll 5 5).grid.setTile 2 2 TileType.EMPTY).setTile 1 3 TileType.BOULDER ∧
    (physicsStep 0 (mkState wGridRoll 5 5) 2 2).grid.getTile 3 3 = TileType.EMPTY := by
  have h := roll_prefers_left 0 (mkState wGridRoll 5 5) 2 2
    (by decide) (by decide) (by decide) (by decide) (by decide) (by decide)
    (by decide) (by decide) (by decide) (by decide)
  exact h

/-- Witness for C10: the dirt cell of `wGridMixed` survives an update. -/
theorem physics_conserves_tiles_witness :
    (updatePhysics 0 (mkState wGridMixed 4 4)).grid.getTile 1 1 = TileType.DIRT :=
  (physics_conserves_tiles 0 (mkState wGridMixed 4 4)).1 1 1 TileType.DIRT
    (Or.inr (Or.inl rfl)) (by decide)

/-! ## Camera claims -/

/-- C9 counterexample: the claim "one smoothed camera update always
leaves the final camera position clamped within
`[0, gridDim - viewportDim]` on both axes" is false: `wStateCam` has its
camera at `-1/200` (within the deadzone of its target 0), the update
applies no movement, and the final `cameraX` is still negative. -/
theorem camera_not_always_clamped :
    (updateCamera 16 wStateCam).cameraX < 0 := by
  have hx : (updateCamera 16 wStateCam).cameraX = wStateCam.cameraX := by
    simp only [updateCamera, cameraTargetX, cameraTargetY, wStateCam, mkState]
    rw [if_neg]
    push_neg
    constructor <;>
      · rw [abs_le]
        norm_num [VIEWPORT_WIDTH, VIEWPORT_HEIGHT, GRID_WIDTH, GRID_HEIGHT, CAMERA_DEADZONE]
  rw [hx]
  norm_num [wStateCam, mkState]

/-- C9 (amended): one smoothed camera update (with non-negative elapsed
time) never moves the camera past its clamped target on either axis,
applies no movement when both axes are within the deadzone, and —
whenever movement is applied — leaves the final position clamped within
`[0, gridDim - viewportDim]` on both axes (a camera already inside the
deadzone keeps its current, possibly unclamped, position). -/
theorem camera_no_overshoot (dt : ℚ) (s : GameState) (hdt : 0 ≤ dt) :
    ((s.cameraX ≤ cameraTargetX s → (updateCamera dt s).cameraX ≤ cameraTargetX s) ∧
     (cameraTargetX s ≤ s.cameraX → cameraTargetX s ≤ (updateCamera dt s).cameraX) ∧
     (s.cameraY ≤ cameraTargetY s → (updateCamera dt s).cameraY ≤ cameraTargetY s) ∧
     (cameraTargetY s ≤ s.cameraY → cameraTargetY s ≤ (updateCamera dt s).cameraY)) ∧
    (abs (cameraTargetX s - s.cameraX) ≤ CAMERA_DEADZONE →
      abs (cameraTargetY s - s.cameraY) ≤ CAMERA_DEADZONE →
      (updateCamera dt s).cameraX = s.cameraX ∧ (updateCamera dt s).cameraY = s.cameraY) ∧
    ((abs (cameraTargetX s - s.cameraX) > CAMERA_DEADZONE ∨
      abs (cameraTargetY s - s.cameraY) > CAMERA_DEADZONE) →
      0 ≤ (updateCamera dt s).cameraX ∧
      (updateCamera dt s).cameraX ≤ ((GRID_WIDTH - VIEWPORT_WIDTH : Int) : ℚ) ∧
      0 ≤ (updateCamera dt s).cameraY ∧
      (updateCamera dt s).cameraY ≤ ((GRID_HEIGHT - VIEWPORT_HEIGHT : Int) : ℚ)) := by
  have h0X : (0 : ℚ) ≤ cameraTargetX s := le_max_left _ _
  have h0Y : (0 : ℚ) ≤ cameraTargetY s := le_max_left _ _
  have hXb : cameraTargetX s ≤ ((GRID_WIDTH - VIEWPORT_WIDTH : Int) : ℚ) :=
    max_le (by norm_num [GRID_WIDTH, VIEWPORT_WIDTH]) (min_le_right _ _)
  have hYb : cameraTargetY s ≤ ((GRID_HEIGHT - VIEWPORT_HEIGHT : Int) : ℚ) :=
    max_le (by norm_num [GRID_HEIGHT, VIEWPORT_HEIGHT]) (min_le_right _ _)
  simp only [updateCamera]
  split_ifs with hmove hdx hdy hdy
  · -- movement applied, dx > 0, dy > 0
    refine ⟨⟨fun _ => ?_, fun hc => absurd hdx (not_lt.mpr (by linarith)), fun _ => ?_,
        fun hc => absurd hdy (not_lt.mpr (by linarith))⟩, fun hX hY => ?_, fun _ => ?_⟩
    · exact max_le h0X (le_trans (min_le_left _ _) (min_le_right _ _))
    · exact max_le h0Y (le_trans (min_le_left _ _) (min_le_right _ _))
    · exact absurd hmove (by push_neg; exact ⟨hX, hY⟩)
    · exact ⟨le_max_left _ _, max_le (le_trans h0X hXb) (min_le_right _ _),
        le_max_left _ _, max_le (le_trans h0Y hYb) (min_le_right _ _)⟩
  · -- movement applied, dx > 0, dy ≤ 0
    refine ⟨⟨fun _ => ?_, fun hc => absurd hdx (not_lt.mpr (by linarith)), fun hc => ?_,
        fun _ => ?_⟩, fun hX hY => ?_, fun _ => ?_⟩
    · exact max_le h0X (le_trans (min_le_left _ _) (min_le_right _ _))
    · have hyt : cameraTargetY s = s.cameraY := le_antisymm (by linarith [not_lt.mp hdy]) hc
      have hz : cameraTargetY s - s.cameraY = 0 := by rw [hyt]; ring
      rw [hz, zero_mul, add_zero, ← hyt, max_self]
      exact max_le h0Y (min_le_left _ _)
    · exact le_trans (le_min (le_max_right _ _) hYb) (le_max_right 0 _)
    · exact absurd hmove (by push_neg; exact ⟨hX, hY⟩)
    · exact ⟨le_max_left _ _, max_le (le_trans h0X hXb) (min_le_right _ _),
        le_max_left _ _, max_le (le_trans h0Y hYb) (min_le_right _ _)⟩
  · -- movement applied, dx ≤ 0, dy > 0
    refine ⟨⟨fun hc => ?_, fun _ => ?_, fun _ => ?_,
        fun hc => absurd hdy (not_lt.mpr (by linarith))⟩, fun hX hY => ?_, fun _ => ?_⟩
    · have hxt : cameraTargetX s = s.cameraX := le_antisymm (by linarith [not_lt.mp hdx]) hc
      have hz : cameraTargetX s - s.cameraX = 0 := by rw [hxt]; ring
      rw [hz, zero_mul, add_zero, ← hxt, max_self]
      exact max_le h0X (min_le_left _ _)
    · exact le_trans (le_min (le_max_right _ _) hXb) (le_max_right 0 _)
    · exact max_le h0Y (le_trans (min_le_left _ _) (min_le_right _ _))
    · exact absurd hmove (by push_neg; exact ⟨hX, hY⟩)
    · exact ⟨le_max_left _ _, max_le (le_trans h0X hXb) (min_le_right _ _),
        le_max_left _ _, max_le (le_trans h0Y hYb) (min_le_right _ _)⟩
  · -- movement applied, dx ≤ 0, dy ≤ 0
    refine ⟨⟨fun hc => ?_, fun _ => ?_, fun hc => ?_, fun _ => ?_⟩,
        fun hX hY => ?_, fun _ => ?_⟩
    · have hxt : cameraTargetX s = s.cameraX := le_antisymm (by linarith [not_lt.mp hdx]) hc
      have hz : cameraTargetX s - s.cameraX = 0 := by rw [hxt]; ring
      rw [hz, zero_mul, add_zero, ← hxt, max_self]
      exact max_le h0X (min_le_left _ _)
    · exact le_trans (le_min (le_max_right _ _) hXb) (le_max_right 0 _)
    · have hyt : cameraTargetY s = s.cameraY := le_antisymm (by linarith [not_lt.mp hdy]) hc
      have hz : cameraTargetY s - s.cameraY = 0 := by rw [hyt]; ring
      rw [hz, zero_mul, add_zero, ← hyt, max_self]
      exact max_le h0Y (min_le_left _ _)
    · exact le_trans (le_min (le_max_right _ _) hYb) (le_max_right 0 _)
    · exact absurd hmove (by push_neg; exact ⟨hX, hY⟩)
    · exact ⟨le_max_left _ _, max_le (le_trans h0X hXb) (min_le_right _ _),
        le_max_left _ _, max_le (le_trans h0Y hYb) (min_le_right _ _)⟩
  · -- no movement (both axes inside the deadzone)
    push_neg at hmove
    exact ⟨⟨fun h => h, fun h => h, fun h => h, fun h => h⟩,
      fun _ _ => ⟨rfl, rfl⟩, fun hc => absurd hc (by push_neg; exact hmove)⟩

/-- Witness for the amended C9: at `wStateCam` (camera `-1/200`, both
axes within the deadzone of their targets) the update moves nothing. -/
theorem camera_no_overshoot_witness :
    (updateCamera 16 wStateCam).cameraX = wStateCam.cameraX ∧
    (updateCamera 16 wStateCam).cameraY = wStateCam.cameraY :=
  (camera_no_overshoot 16 wStateCam (by norm_num)).2.1
    (by rw [abs_le]
        constructor <;>
          norm_num [cameraTargetX, wStateCam, mkState, CAMERA_DEADZONE, VIEWPORT_WIDTH, GRID_WIDTH])
    (by rw [abs_le]
        constructor <;>
          norm_num [cameraTargetY, wStateCam, mkState, CAMERA_DEADZONE, VIEWPORT_HEIGHT, GRID_HEIGHT])

/-! ## Timer claims -/

theorem list_foldl_preserve {α β : Type _} (f : β → α → β) (P : β → Prop) :
    ∀ (l : List α) (b : β), (∀ (x : β) (a : α), a ∈ l → P x → P (f x a)) → P b →
      P (l.foldl f b)
  | [], _, _, hP => hP
  | a :: l, b, hstep, hP =>
    list_foldl_preserve f P l (f b a)
      (fun x a' ha' hx => hstep x a' (List.mem_cons_of_mem _ ha') hx)
      (hstep b a (List.mem_cons_self _ _) hP)

theorem runTimerCount_fst :
    ∀ (ts : List ℚ) (p : GameState × Nat),
      (ts.foldl
        (fun p t =>
          (updateTime t p.1,
            p.2 + (if p.1.isTimeWarning = false ∧ (updateTime t p.1).isTimeWarning = true then 1 else 0)))
        p).1 = ts.foldl (fun st t => updateTime t st) p.1
  | [], _ => rfl
  | t :: ts, p => runTimerCount_fst ts _

/-- A single `updateTime` call with ≥ 1000 ms elapsed and at least two
seconds remaining: decrements once, stamps the tick, stays active, and
the warning flag becomes the disjunction of "newly below threshold" and
its old value. -/
theorem updateTime_tick (t : ℚ) (st : GameState)
    (hgo : st.gameOver = false) (hwon : st.gameWon = false)
    (helap : t - st.lastTimeUpdate ≥ 1000) (hrem : 2 ≤ st.timeRemaining) :
    (updateTime t st).timeRemaining = st.timeRemaining - 1 ∧
    (updateTime t st).lastTimeUpdate = t ∧
    (updateTime t st).gameOver = false ∧
    (updateTime t st).gameWon = false ∧
    ((updateTime t st).isTimeWarning = true ↔
      (st.timeRemaining - 1 ≤ TIME_WARNING_THRESHOLD ∨ st.isTimeWarning = true)) := by
  simp only [updateTime]
  rw [if_neg (by simp [hgo, hwon]), if_pos helap]
  split_ifs with hw hexp hexp <;> dsimp only at *
  · exact absurd hexp (by omega)
  · exact ⟨rfl, rfl, hgo, hwon, by simp [hw.1]⟩
  · exact absurd hexp (by omega)
  · refine ⟨rfl, rfl, hgo, hwon, ?_⟩
    constructor
    · exact fun h => Or.inr h
    · intro h
      rcases h with h | h
      · rcases Bool.eq_false_or_eq_true st.isTimeWarning with hb | hb
        · exact hb
        · exact absurd ⟨h, hb⟩ hw
      · exact h

theorem updateTime_timerInv (t : ℚ) (st : GameState) (c : Nat) (h : timerInv (st, c)) :
    timerInv (updateTime t st,
      c + (if st.isTimeWarning = false ∧ (updateTime t st).isTimeWarning = true then 1 else 0)) := by
  have hT0 : (0 : Int) ≤ TIME_WARNING_THRESHOLD := by decide
  obtain ⟨hwon, hcase⟩ := h
  dsimp only at hwon hcase
  rcases hcase with ⟨hgo, hrem, hiff, hcnt⟩ | ⟨hgo, hwF, hle⟩
  · -- the timer is still running
    simp only [updateTime]
    rw [if_neg (by simp [hgo, hwon])]
    by_cases helap : t - st.lastTimeUpdate ≥ 1000
    · rw [if_pos helap]
      split_ifs with hw hexpA ccA1 ccA2 hexpB ccB1 ccB2 <;>
        unfold timerInv <;> (try dsimp only at *)
      · exact absurd ccA1 (by simp)
      · have hc0 : c = 0 := by rw [hcnt, if_neg (by simp [hw.2])]
        exact ⟨hwon, Or.inr ⟨rfl, rfl, by omega⟩⟩
      · have hc0 : c = 0 := by rw [hcnt, if_neg (by simp [hw.2])]
        refine ⟨hwon, Or.inl ⟨hgo, by omega, by simp [hw.1], by simp [hc0]⟩⟩
      · exact absurd ⟨hw.2, rfl⟩ ccA2
      · exact absurd ccB1 (by simp)
      · have hwT : st.isTimeWarning = true := by
          rcases Bool.eq_false_or_eq_true st.isTimeWarning with hb | hb
          · exact hb
          · exact absurd ⟨by omega, hb⟩ hw
        have hc1 : c = 1 := by rw [hcnt, if_pos hwT]
        exact ⟨hwon, Or.inr ⟨rfl, rfl, by omega⟩⟩
      · obtain ⟨h1, h2⟩ := ccB2
        rw [h1] at h2
        exact absurd h2 Bool.false_ne_true
      · refine ⟨hwon, Or.inl ⟨hgo, by omega, ?_, by simpa using hcnt⟩⟩
        rcases Bool.eq_false_or_eq_true st.isTimeWarning with hb | hb
        · simp only [hb]
          constructor
          · intro _
            have := hiff.mp hb
            omega
          · intro _; trivial
        · simp only [hb]
          constructor
          · intro hc; exact absurd hc Bool.false_ne_true
          · intro hc; exact absurd ⟨by omega, hb⟩ hw
    · rw [if_neg helap]
      rw [if_neg (by rintro ⟨h1, h2⟩; rw [h1] at h2; exact Bool.false_ne_true h2)]
      exact ⟨hwon, Or.inl ⟨hgo, hrem, hiff, by simpa using hcnt⟩⟩
  · -- the game is already over: frozen, idempotent
    have hupd : updateTime t st = st := by
      simp only [updateTime]
      rw [if_pos (Or.inl hgo), if_neg (by simp [hwF])]
    rw [hupd, if_neg (by rintro ⟨h1, h2⟩; rw [h1] at h2; exact Bool.false_ne_true h2)]
    exact ⟨hwon, Or.inr ⟨hgo, hwF, by omega⟩⟩

theorem updateTime_rate (t t0 T : ℚ) (st : GameState) (ht : t ≤ T)
    (h1 : 1000 * ((TIME_LIMIT : ℚ) - (st.timeRemaining : ℚ)) ≤ st.lastTimeUpdate - t0)
    (h2 : st.lastTimeUpdate ≤ T) :
    1000 * ((TIME_LIMIT : ℚ) - ((updateTime t st).timeRemaining : ℚ)) ≤
      (updateTime t st).lastTimeUpdate - t0 ∧
    (updateTime t st).lastTimeUpdate ≤ T := by
  simp only [updateTime]
  split_ifs with hfr hwarn helap hwcond hexp hexp
  · exact ⟨h1, h2⟩
  · exact ⟨h1, h2⟩
  · refine ⟨?_, ht⟩
    dsimp only at hexp ⊢
    have hc : (st.timeRemaining : ℚ) ≤ 1 := by exact_mod_cast (by omega : st.timeRemaining ≤ 1)
    push_cast
    linarith
  · refine ⟨?_, ht⟩
    dsimp only
    push_cast
    linarith
  · refine ⟨?_, ht⟩
    dsimp only at hexp ⊢
    have hc : (st.timeRemaining : ℚ) ≤ 1 := by exact_mod_cast (by omega : st.timeRemaining ≤ 1)
    push_cast
    linarith
  · refine ⟨?_, ht⟩
    dsimp only
    push_cast
    linarith
  · exact ⟨h1, h2⟩

theorem secondTicks_succ (t0 : ℚ) (n : Nat) :
    secondTicks t0 (n + 1) = secondTicks t0 n ++ [t0 + 1000 * ((n : ℚ) + 1)] := by
  unfold secondTicks
  rw [List.range_succ]
  simp

theorem runTimerCount_append_single (s : GameState) (l : List ℚ) (a : ℚ) :
    runTimerCount s (l ++ [a]) =
      (updateTime a (runTimerCount s l).1,
        (runTimerCount s l).2 +
          (if (runTimerCount s l).1.isTimeWarning = false ∧
              (updateTime a (runTimerCount s l).1).isTimeWarning = true then 1 else 0)) := by
  unfold runTimerCount
  rw [List.foldl_append]
  rfl

/-- State of the timer after `n` regular one-second ticks from a fresh
start: `TIME_LIMIT - n` seconds remain, the warning flag is on exactly
when `240 ≤ n`, and exactly one warning transition has happened when it
is on. -/
theorem runTimerCount_secondTicks (s : GameState) (t0 : ℚ)
    (hrem : s.timeRemaining = TIME_LIMIT) (hwarn : s.isTimeWarning = false)
    (hgo : s.gameOver = false) (hwon : s.gameWon = false) (hlast : s.lastTimeUpdate = t0) :
    ∀ n : Nat, n ≤ 299 →
      (runTimerCount s (secondTicks t0 n)).1.timeRemaining = TIME_LIMIT - (n : Int) ∧
      (runTimerCount s (secondTicks t0 n)).1.lastTimeUpdate = t0 + 1000 * (n : ℚ) ∧
      ((runTimerCount s (secondTicks t0 n)).1.isTimeWarning = true ↔ 240 ≤ n) ∧
      (runTimerCount s (secondTicks t0 n)).1.gameOver = false ∧
      (runTimerCount s (secondTicks t0 n)).1.gameWon = false ∧
      (runTimerCount s (secondTicks t0 n)).2 = (if 240 ≤ n then 1 else 0) := by
  intro n
  induction n with
  | zero =>
    intro _
    refine ⟨?_, ?_, ?_, hgo, hwon, ?_⟩ <;>
      simp [secondTicks, runTimerCount, hrem, hwarn, hlast]
  | succ n ih =>
    intro hn
    obtain ⟨ihrem, ihlast, ihwarn, ihgo, ihwon, ihcnt⟩ := ih (by omega)
    rw [secondTicks_succ, runTimerCount_append_single]
    have helap : (t0 + 1000 * ((n : ℚ) + 1)) - (runTimerCount s (secondTicks t0 n)).1.lastTimeUpdate ≥ 1000 := by
      rw [ihlast]; push_cast; linarith
    have hrem2 : 2 ≤ (runTimerCount s (secondTicks t0 n)).1.timeRemaining := by
      rw [ihrem]; simp only [TIME_LIMIT]; omega
    obtain ⟨e1, e2, e3, e4, e5⟩ :=
      updateTime_tick (t0 + 1000 * ((n : ℚ) + 1)) (runTimerCount s (secondTicks t0 n)).1
        ihgo ihwon helap hrem2
    refine ⟨?_, ?_, ?_, e3, e4, ?_⟩
    · dsimp only
      rw [e1, ihrem]
      push_cast
      ring
    · dsimp only
      rw [e2]
      push_cast
      ring
    · dsimp only
      rw [e5, ihrem]
      simp only [TIME_WARNING_THRESHOLD, TIME_LIMIT]
      constructor
      · rintro (hcc | hcc)
        · omega
        · have := ihwarn.mp hcc
          omega
      · intro hcc
        by_cases h240 : 240 ≤ n
        · exact Or.inr (ihwarn.mpr h240)
        · exact Or.inl (by omega)
    · dsimp only
      by_cases h240 : 240 ≤ n
      · rw [if_neg (by rintro ⟨hf, -⟩; rw [ihwarn.mpr h240] at hf; exact absurd hf (by simp))]
        rw [ihcnt, if_pos h240, if_pos (by omega)]
      · have hwf : (runTimerCount s (secondTicks t0 n)).1.isTimeWarning = false := by
          rcases Bool.eq_false_or_eq_true (runTimerCount s (secondTicks t0 n)).1.isTimeWarning with hb | hb
          · exact absurd (ihwarn.mp hb) h240
          · exact hb
        by_cases h239 : n = 239
        · have hwT : (updateTime (t0 + 1000 * ((n : ℚ) + 1))
              (runTimerCount s (secondTicks t0 n)).1).isTimeWarning = true := by
            apply e5.mpr
            left
            rw [ihrem, h239]
            decide
          rw [if_pos ⟨hwf, hwT⟩, ihcnt, if_neg h240, if_pos (by omega)]
        · have hwF2 : ¬(updateTime (t0 + 1000 * ((n : ℚ) + 1))
              (runTimerCount s (secondTicks t0 n)).1).isTimeWarning = true := by
            rw [e5]
            rintro (hcc | hcc)
            · rw [ihrem] at hcc
              simp only [TIME_WARNING_THRESHOLD, TIME_LIMIT] at hcc
              omega
            · rw [hwf] at hcc
              exact absurd hcc (by simp)
          rw [if_neg (by rintro ⟨-, hf⟩; exact hwF2 hf)]
          rw [ihcnt, if_neg h240, if_neg (by omega)]

theorem runTimerCount_fst' (s : GameState) (ts : List ℚ) :
    (runTimerCount s ts).1 = runTimer s ts :=
  runTimerCount_fst ts (s, 0)

/-- C6: from a fresh active timer (`TIME_LIMIT` seconds, warning off,
last tick at `t0`): (1) over any sequence of updates whose timestamps
stay below `T`, at most one second is lost per elapsed 1000 ms
(`1000 · (lost seconds) ≤ T - t0`); (2) while the game is still active
the warning flag is on exactly when the remaining time is at most the
threshold, and the number of `false → true` warning transitions is
exactly one when the flag is on and zero before — so the transition
fires exactly once, at the update where the remaining time first drops
to the threshold; (3) after 240 regular one-second ticks, 60 seconds
remain, the warning is on and exactly one transition has fired;
(4) when the remaining time reaches zero the game is marked over and
the warning flag and looping cue are cleared. -/
theorem timer_decrement_warning_expiry (s : GameState) (t0 : ℚ)
    (hrem : s.timeRemaining = TIME_LIMIT) (hwarn : s.isTimeWarning = false)
    (hgo : s.gameOver = false) (hwon : s.gameWon = false) (hlast : s.lastTimeUpdate = t0) :
    (∀ (ts : List ℚ) (T : ℚ), (∀ t ∈ ts, t ≤ T) → t0 ≤ T →
      1000 * ((TIME_LIMIT : ℚ) - ((runTimer s ts).timeRemaining : ℚ)) ≤ T - t0) ∧
    (∀ ts : List ℚ, (runTimerCount s ts).1.gameOver = false →
      (((runTimerCount s ts).1.isTimeWarning = true ↔
        (runTimerCount s ts).1.timeRemaining ≤ TIME_WARNING_THRESHOLD) ∧
      (runTimerCount s ts).2 =
        (if (runTimerCount s ts).1.isTimeWarning = true then 1 else 0))) ∧
    ((runTimer s (secondTicks t0 240)).timeRemaining = 60 ∧
      (runTimer s (secondTicks t0 240)).isTimeWarning = true ∧
      (runTimerCount s (secondTicks t0 240)).2 = 1) ∧
    (∀ (st : GameState) (t : ℚ), st.gameOver = false → st.gameWon = false →
      t - st.lastTimeUpdate ≥ 1000 → st.timeRemaining ≤ 1 →
      (updateTime t st).timeRemaining = 0 ∧ (updateTime t st).gameOver = true ∧
      (updateTime t st).isTimeWarning = false ∧ (updateTime t st).warningCuePlaying = false) := by
  refine ⟨?_, ?_, ?_, ?_⟩
  · -- (1) decrement rate bound
    intro ts T hts ht0
    have h : 1000 * ((TIME_LIMIT : ℚ) - ((runTimer s ts).timeRemaining : ℚ)) ≤
        (runTimer s ts).lastTimeUpdate - t0 ∧ (runTimer s ts).lastTimeUpdate ≤ T :=
      list_foldl_preserve (fun st t => updateTime t st)
        (fun st => 1000 * ((TIME_LIMIT : ℚ) - (st.timeRemaining : ℚ)) ≤ st.lastTimeUpdate - t0 ∧
          st.lastTimeUpdate ≤ T) ts s
        (fun st a ha hP => updateTime_rate a t0 T st (hts a ha) hP.1 hP.2)
        ⟨by rw [hrem, hlast]; linarith, by rw [hlast]; exact ht0⟩
    exact le_trans h.1 (by linarith [h.2])
  · -- (2) warning transition discipline while active
    intro ts hactive
    have h : timerInv (runTimerCount s ts) :=
      list_foldl_preserve
        (fun p t =>
          (updateTime t p.1,
            p.2 + (if p.1.isTimeWarning = false ∧ (updateTime t p.1).isTimeWarning = true then 1 else 0)))
        timerInv ts (s, 0)
        (fun p a _ hP => updateTime_timerInv a p.1 p.2 hP)
        ⟨hwon, Or.inl ⟨hgo, by rw [hrem]; decide, by rw [hwarn, hrem]; decide, by simp [hwarn]⟩⟩
    rcases h.2 with ⟨-, -, hiff, hcnt⟩ | ⟨hover, -, -⟩
    · exact ⟨hiff, hcnt⟩
    · rw [hactive] at hover
      exact absurd hover (by simp)
  · -- (3) the 240-tick scenario
    obtain ⟨e1, -, e3, -, -, e6⟩ :=
      runTimerCount_secondTicks s t0 hrem hwarn hgo hwon hlast 240 (by omega)
    rw [runTimerCount_fst'] at e1 e3
    exact ⟨by rw [e1]; decide, e3.mpr (by omega), by rw [e6]; decide⟩
  · -- (4) expiry
    intro st t hgo' hwon' helap hone
    simp only [updateTime]
    rw [if_neg (by simp [hgo', hwon']), if_pos helap]
    split_ifs with hw hexp hexp <;> (try dsimp only at hexp ⊢)
    · exact ⟨rfl, rfl, rfl, rfl⟩
    · exact absurd (by omega : st.timeRemaining - 1 ≤ 0) hexp
    · exact ⟨rfl, rfl, rfl, rfl⟩
    · exact absurd (by omega : st.timeRemaining - 1 ≤ 0) hexp

/-- Witness for C6 at a concrete fresh state and `t0 = 0`. -/
theorem timer_decrement_warning_expiry_witness :
    (runTimer (mkState ⟨4, 4, fun _ _ => TileType.EMPTY⟩ 1 1) (secondTicks 0 240)).timeRemaining = 60 ∧
    (runTimer (mkState ⟨4, 4, fun _ _ => TileType.EMPTY⟩ 1 1) (secondTicks 0 240)).isTimeWarning = true ∧
    (runTimerCount (mkState ⟨4, 4, fun _ _ => TileType.EMPTY⟩ 1 1) (secondTicks 0 240)).2 = 1 :=
  (timer_decrement_warning_expiry (mkState ⟨4, 4, fun _ _ => TileType.EMPTY⟩ 1 1) 0
    rfl rfl rfl rfl rfl).2.2.1

/-! ## Movement resolver claims -/

theorem applyFacing_fields (key : ArrowKey) (s : GameState) :
    (applyFacing key s).grid = s.grid ∧
    (applyFacing key s).playerX = s.playerX ∧
    (applyFacing key s).playerY = s.playerY ∧
    (applyFacing key s).exitRevealed = s.exitRevealed ∧
    (applyFacing key s).gameWon = s.gameWon := by
  cases key <;> exact ⟨rfl, rfl, rfl, rfl, rfl⟩

theorem applyPush_fields (key : ArrowKey) (s : GameState) :
    (applyPush key s).playerX = s.playerX ∧
    (applyPush key s).playerY = s.playerY ∧
    (applyPush key s).gameWon = s.gameWon := by
  cases key <;> exact ⟨rfl, rfl, rfl⟩

theorem updateCameraPosition_fields (s : GameState) :
    (updateCameraPosition s).playerX = s.playerX ∧
    (updateCameraPosition s).playerY = s.playerY ∧
    (updateCameraPosition s).gameWon = s.gameWon :=
  ⟨rfl, rfl, rfl⟩

theorem revealExit_fields (r : Nat → ℚ) (now : ℚ) (s : GameState) (k : Nat) :
    (revealExit r now s k).1.playerX = s.playerX ∧
    (revealExit r now s k).1.playerY = s.playerY ∧
    (revealExit r now s k).1.gameOver = s.gameOver ∧
    (revealExit r now s k).1.gameWon = s.gameWon ∧
    (revealExit r now s k).1.score = s.score ∧
    (revealExit r now s k).1.diamondsCollected = s.diamondsCollected := by
  unfold revealExit
  cases findExitPos r s.grid s.playerX s.playerY SAMPLE_FUEL k with
  | none => exact ⟨rfl, rfl, rfl, rfl, rfl, rfl⟩
  | some p =>
    obtain ⟨ex, ey, k2⟩ := p
    exact ⟨rfl, rfl, rfl, rfl, rfl, rfl⟩

theorem collectDiamond_fields (r : Nat → ℚ) (now : ℚ) (s : GameState) (k : Nat) :
    (collectDiamond r now s k).1.playerX = s.playerX ∧
    (collectDiamond r now s k).1.playerY = s.playerY ∧
    (collectDiamond r now s k).1.gameOver = s.gameOver ∧
    (collectDiamond r now s k).1.gameWon = s.gameWon ∧
    (collectDiamond r now s k).1.score = s.score + POINTS_PER_DIAMOND ∧
    (collectDiamond r now s k).1.diamondsCollected = s.diamondsCollected + 1 := by
  simp only [collectDiamond]
  split_ifs with hc
  · obtain ⟨f1, f2, f3, f4, f5, f6⟩ := revealExit_fields r now
      { s with score := s.score + POINTS_PER_DIAMOND,
               diamondsCollected := s.diamondsCollected + 1 } k
    exact ⟨f1, f2, f3, f4, f5, f6⟩
  · exact ⟨rfl, rfl, rfl, rfl, rfl, rfl⟩

theorem canMoveTo_congr (s s' : GameState) (x y : Int) (h : s'.grid = s.grid) :
    canMoveTo s' x y ↔ canMoveTo s x y := by
  unfold canMoveTo
  rw [h]

/-- Case analysis of `handleInput` on an active state: either the
destination is not walkable and the player does not move, or it is a
revealed exit and the game is won without moving, or the move happens
and the player ends at the destination. -/
theorem handleInput_cases (r : Nat → ℚ) (key : ArrowKey) (now : ℚ) (s : GameState) (k : Nat)
    (hgo : s.gameOver = false) (hwon : s.gameWon = false) :
    (¬canMoveTo s (moveTargetX s key) (moveTargetY s key) ∧
      (handleInput r key now s k).1.playerX = s.playerX ∧
      (handleInput r key now s k).1.playerY = s.playerY) ∨
    (s.grid.getTile (moveTargetX s key) (moveTargetY s key) = TileType.EXIT ∧
      s.exitRevealed = true ∧
      (handleInput r key now s k).1.playerX = s.playerX ∧
      (handleInput r key now s k).1.playerY = s.playerY ∧
      (handleInput r key now s k).1.gameWon = true) ∨
    (canMoveTo s (moveTargetX s key) (moveTargetY s key) ∧
      ¬(s.grid.getTile (moveTargetX s key) (moveTargetY s key) = TileType.EXIT ∧
        s.exitRevealed = true) ∧
      (handleInput r key now s k).1.playerX = moveTargetX s key ∧
      (handleInput r key now s k).1.playerY = moveTargetY s key) := by
  obtain ⟨hfg, hfx, hfy, hfe, hfw⟩ := applyFacing_fields key s
  simp only [handleInput]
  rw [if_neg (by simp [hgo, hwon])]
  by_cases hcm : canMoveTo s (moveTargetX s key) (moveTargetY s key)
  · have hcm0 : canMoveTo (applyFacing key s) (moveTargetX s key) (moveTargetY s key) :=
      (canMoveTo_congr s (applyFacing key s) _ _ hfg).mpr hcm
    rw [if_pos hcm0]
    by_cases hd : s.grid.getTile (moveTargetX s key) (moveTargetY s key) = TileType.DIAMOND
    · have hd0 : (applyFacing key s).grid.getTile (moveTargetX s key) (moveTargetY s key) =
          TileType.DIAMOND := by rw [hfg]; exact hd
      rw [if_pos hd0, if_neg (by rintro ⟨hE, -⟩; rw [hd0] at hE; exact absurd hE (by decide))]
      refine Or.inr (Or.inr ⟨hcm, ?_, ?_, ?_⟩)
      · rintro ⟨hE, -⟩
        rw [hd] at hE
        exact absurd hE (by decide)
      · obtain ⟨p1, p2, p3⟩ := applyPush_fields key
          (updateCameraPosition
            { (collectDiamond r now (applyFacing key s) k).1 with
                grid := (collectDiamond r now (applyFacing key s) k).1.grid.setTile
                  (moveTargetX s key) (moveTargetY s key) TileType.EMPTY,
                playerX := moveTargetX s key, playerY := moveTargetY s key,
                playerAnimFrame := ((collectDiamond r now (applyFacing key s) k).1.playerAnimFrame + 1) % 4,
                lastPlayerMoveTime := now })
        exact p1
      · obtain ⟨p1, p2, p3⟩ := applyPush_fields key
          (updateCameraPosition
            { (collectDiamond r now (applyFacing key s) k).1 with
                grid := (collectDiamond r now (applyFacing key s) k).1.grid.setTile
                  (moveTargetX s key) (moveTargetY s key) TileType.EMPTY,
                playerX := moveTargetX s key, playerY := moveTargetY s key,
                playerAnimFrame := ((collectDiamond r now (applyFacing key s) k).1.playerAnimFrame + 1) % 4,
                lastPlayerMoveTime := now })
        exact p2
    · have hd0 : ¬((applyFacing key s).grid.getTile (moveTargetX s key) (moveTargetY s key) =
          TileType.DIAMOND) := by rw [hfg]; exact hd
      rw [if_neg hd0]
      by_cases hE : s.grid.getTile (moveTargetX s key) (moveTargetY s key) = TileType.EXIT ∧
          s.exitRevealed = true
      · have hE0 : (applyFacing key s).grid.getTile (moveTargetX s key) (moveTargetY s key) =
            TileType.EXIT ∧ (applyFacing key s).exitRevealed = true := by
          rw [hfg, hfe]; exact hE
        rw [if_pos hE0]
        exact Or.inr (Or.inl ⟨hE.1, hE.2, hfx, hfy, rfl⟩)
      · have hE0 : ¬((applyFacing key s).grid.getTile (moveTargetX s key) (moveTargetY s key) =
            TileType.EXIT ∧ (applyFacing key s).exitRevealed = true) := by
          rw [hfg, hfe]; exact hE
        rw [if_neg hE0]
        refine Or.inr (Or.inr ⟨hcm, hE, ?_, ?_⟩)
        · obtain ⟨p1, p2, p3⟩ := applyPush_fields key
            (updateCameraPosition
              { applyFacing key s with
                  grid := (applyFacing key s).grid.setTile
                    (moveTargetX s key) (moveTargetY s key) TileType.EMPTY,
                  playerX := moveTargetX s key, playerY := moveTargetY s key,
                  playerAnimFrame := ((applyFacing key s).playerAnimFrame + 1) % 4,
                  lastPlayerMoveTime := now })
          exact p1
        · obtain ⟨p1, p2, p3⟩ := applyPush_fields key
            (updateCameraPosition
              { applyFacing key s with
                  grid := (applyFacing key s).grid.setTile
                    (moveTargetX s key) (moveTargetY s key) TileType.EMPTY,
                  playerX := moveTargetX s key, playerY := moveTargetY s key,
                  playerAnimFrame := ((applyFacing key s).playerAnimFrame + 1) % 4,
                  lastPlayerMoveTime := now })
          exact p2
  · have hcm0 : ¬canMoveTo (applyFacing key s) (moveTargetX s key) (moveTargetY s key) :=
      fun hc => hcm ((canMoveTo_congr s (applyFacing key s) _ _ hfg).mp hc)
    rw [if_neg hcm0]
    exact Or.inl ⟨hcm, hfx, hfy⟩

/-- C4 counterexample: the claim "a directional move changes the
player's position only if the destination is Empty, Dirt, Diamond, or a
revealed Exit" (and "a move onto an unrevealed Exit is not legal") is
false: in `wStateExit` the tile right of the player is an `EXIT` with
`exitRevealed = false`, the game is active, and pressing right moves the
player onto it. -/
theorem move_onto_unrevealed_exit :
    wStateExit.grid.getTile 2 1 = TileType.EXIT ∧
    wStateExit.exitRevealed = false ∧
    wStateExit.playerX = 1 ∧ wStateExit.playerY = 1 ∧
    (handleInput (fun _ => 0) ArrowKey.right 0 wStateExit 0).1.playerX = 2 ∧
    (handleInput (fun _ => 0) ArrowKey.right 0 wStateExit 0).1.playerY = 1 := by
  rcases handleInput_cases (fun _ => 0) ArrowKey.right 0 wStateExit 0 rfl rfl with
    ⟨hc, -⟩ | ⟨-, hrev, -⟩ | ⟨-, -, hpx, hpy⟩
  · exact absurd (by decide) hc
  · exact absurd hrev (by decide)
  · exact ⟨by decide, rfl, rfl, rfl, hpx.trans (by decide), hpy.trans (by decide)⟩

/-- C4 (amended): on an active state, a directional move changes the
player's position only if the destination holds `EMPTY`, `DIRT`,
`DIAMOND`, or an *unrevealed* `EXIT`; moves onto `BOULDER` or `WALL`
never change the position; a move onto a revealed `EXIT` wins the game
without changing the position; a move onto an unrevealed `EXIT` does
move the player onto it. -/
theorem move_legality (r : Nat → ℚ) (key : ArrowKey) (now : ℚ) (s : GameState) (k : Nat)
    (hgo : s.gameOver = false) (hwon : s.gameWon = false) :
    (((handleInput r key now s k).1.playerX ≠ s.playerX ∨
        (handleInput r key now s k).1.playerY ≠ s.playerY) →
      (s.grid.getTile (moveTargetX s key) (moveTargetY s key) = TileType.EMPTY ∨
       s.grid.getTile (moveTargetX s key) (moveTargetY s key) = TileType.DIRT ∨
       s.grid.getTile (moveTargetX s key) (moveTargetY s key) = TileType.DIAMOND ∨
       (s.grid.getTile (moveTargetX s key) (moveTargetY s key) = TileType.EXIT ∧
        s.exitRevealed = false))) ∧
    ((s.grid.getTile (moveTargetX s key) (moveTargetY s key) = TileType.BOULDER ∨
      s.grid.getTile (moveTargetX s key) (moveTargetY s key) = TileType.WALL) →
      (handleInput r key now s k).1.playerX = s.playerX ∧
      (handleInput r key now s k).1.playerY = s.playerY) ∧
    ((s.grid.getTile (moveTargetX s key) (moveTargetY s key) = TileType.EXIT ∧
        s.exitRevealed = true) →
      (handleInput r key now s k).1.playerX = s.playerX ∧
      (handleInput r key now s k).1.playerY = s.playerY ∧
      (handleInput r key now s k).1.gameWon = true) ∧
    ((s.grid.getTile (moveTargetX s key) (moveTargetY s key) = TileType.EXIT ∧
        s.exitRevealed = false) →
      (handleInput r key now s k).1.playerX = moveTargetX s key ∧
      (handleInput r key now s k).1.playerY = moveTargetY s key) := by
  rcases handleInput_cases r key now s k hgo hwon with
    ⟨hc, hx, hy⟩ | ⟨hE, hrev, hx, hy, hw⟩ | ⟨hc, hnE, hx, hy⟩
  · refine ⟨fun hch => ?_, fun _ => ⟨hx, hy⟩, fun hE => ?_, fun hE => ?_⟩
    · rcases hch with hne | hne
      · exact absurd hx hne
      · exact absurd hy hne
    · exact absurd (Or.inr (Or.inr (Or.inr hE.1))) hc
    · exact absurd (Or.inr (Or.inr (Or.inr hE.1))) hc
  · refine ⟨fun hch => ?_, fun hB => ?_, fun _ => ⟨hx, hy, hw⟩, fun hE' => ?_⟩
    · rcases hch with hne | hne
      · exact absurd hx hne
      · exact absurd hy hne
    · rcases hB with hB | hB <;> rw [hE] at hB <;> exact absurd hB (by decide)
    · rw [hrev] at hE'
      exact absurd hE'.2 (by simp)
  · refine ⟨fun _ => ?_, fun hB => ?_, fun hE => ?_, fun _ => ⟨hx, hy⟩⟩
    · rcases hc with h | h | h | h
      · exact Or.inl h
      · exact Or.inr (Or.inl h)
      · exact Or.inr (Or.inr (Or.inl h))
      · rcases Bool.eq_false_or_eq_true s.exitRevealed with hb | hb
        · exact absurd ⟨h, hb⟩ hnE
        · exact Or.inr (Or.inr (Or.inr ⟨h, hb⟩))
    · rcases hc with h | h | h | h <;>
        rcases hB with hB | hB <;>
        rw [h] at hB <;>
        exact absurd hB (by decide)
    · exact absurd hE hnE

/-- Witness for the amended C4 at `wStateExit` (unrevealed exit: the
player moves onto it). -/
theorem move_legality_witness :
    (handleInput (fun _ => 0) ArrowKey.right 0 wStateExit 0).1.playerX =
      moveTargetX wStateExit ArrowKey.right ∧
    (handleInput (fun _ => 0) ArrowKey.right 0 wStateExit 0).1.playerY =
      moveTargetY wStateExit ArrowKey.right :=
  (move_legality (fun _ => 0) ArrowKey.right 0 wStateExit 0 rfl rfl).2.2.2 ⟨by decide, rfl⟩

/-- Any position returned by the exit-sampling loop satisfies the two
placement conditions: outside the 2-cell box around the player and not
directly below a boulder. -/
theorem findExitPos_spec (r : Nat → ℚ) (g : Grid) (px py : Int) :
    ∀ (fuel k : Nat) (ex ey : Int) (k2 : Nat),
      findExitPos r g px py fuel k = some (ex, ey, k2) →
      ¬(abs (ex - px) ≤ 2 ∧ abs (ey - py) ≤ 2) ∧ g.getTile ex (ey - 1) ≠ TileType.BOULDER
  | 0, _, _, _, _, h => by simp [findExitPos] at h
  | fuel + 1, k, ex, ey, k2, h => by
    rw [findExitPos] at h
    split_ifs at h with hrej
    · exact findExitPos_spec r g px py fuel (k + 2) ex ey k2 h
    · have h' := Option.some.inj h
      simp only [Prod.mk.injEq] at h'
      obtain ⟨he1, he2, -⟩ := h'
      subst he1
      subst he2
      exact ⟨fun hc => hrej (Or.inl hc), fun hc => hrej (Or.inr hc)⟩

/-- One accepted draw of the exit-sampling loop. -/
theorem findExitPos_head (r : Nat → ℚ) (g : Grid) (px py : Int) (fuel k : Nat)
    (h : ¬((abs ((⌊r k * ((g.width - 4 : Int) : ℚ)⌋ + 2) - px) ≤ 2 ∧
          abs ((⌊r (k + 1) * ((g.height - 4 : Int) : ℚ)⌋ + 2) - py) ≤ 2) ∨
        g.getTile (⌊r k * ((g.width - 4 : Int) : ℚ)⌋ + 2)
          ((⌊r (k + 1) * ((g.height - 4 : Int) : ℚ)⌋ + 2) - 1) = TileType.BOULDER)) :
    findExitPos r g px py (fuel + 1) k =
      some (⌊r k * ((g.width - 4 : Int) : ℚ)⌋ + 2,
        ⌊r (k + 1) * ((g.height - 4 : Int) : ℚ)⌋ + 2, k + 2) := by
  rw [findExitPos]
  rw [if_neg h]

theorem revealExit_of_some (r : Nat → ℚ) (now : ℚ) (s : GameState) (k : Nat)
    (ex ey : Int) (k2 : Nat)
    (hF : findExitPos r s.grid s.playerX s.playerY SAMPLE_FUEL k = some (ex, ey, k2)) :
    revealExit r now s k =
      ({ s with exitX := ex, exitY := ey, exitRevealed := true, exitAppearTime := now,
                grid := s.grid.setTile ex ey TileType.EXIT }, k2) := by
  unfold revealExit
  rw [hF]

/-- C5: collecting a diamond reveals the exit exactly when the new count
reaches the quota and the exit is not yet revealed.  On reveal the
chosen cell is outside the 2-cell box around the player and not directly
below a boulder.  Below the quota nothing is revealed, and once revealed
a further collection neither re-triggers the reveal nor relocates the
exit nor touches the grid.  (`hF` says the source's rejection-sampling
loop terminates on the given random stream, returning `(ex, ey)`.) -/
theorem collect_diamond_reveal (r : Nat → ℚ) (now : ℚ) (s : GameState) (k : Nat)
    (ex ey : Int) (k2 : Nat)
    (hF : findExitPos r s.grid s.playerX s.playerY SAMPLE_FUEL k = some (ex, ey, k2)) :
    (s.diamondsCollected + 1 ≥ DIAMONDS_REQUIRED → s.exitRevealed = false →
      (collectDiamond r now s k).1.exitRevealed = true ∧
      (collectDiamond r now s k).1.exitX = ex ∧
      (collectDiamond r now s k).1.exitY = ey ∧
      ¬(abs (ex - s.playerX) ≤ 2 ∧ abs (ey - s.playerY) ≤ 2) ∧
      s.grid.getTile ex (ey - 1) ≠ TileType.BOULDER) ∧
    (s.diamondsCollected + 1 < DIAMONDS_REQUIRED → s.exitRevealed = false →
      (collectDiamond r now s k).1.exitRevealed = false ∧
      (collectDiamond r now s k).1.grid = s.grid) ∧
    (s.exitRevealed = true →
      (collectDiamond r now s k).1.exitRevealed = true ∧
      (collectDiamond r now s k).1.exitX = s.exitX ∧
      (collectDiamond r now s k).1.exitY = s.exitY ∧
      (collectDiamond r now s k).1.grid = s.grid) ∧
    (collectDiamond r now s k).1.score = s.score + POINTS_PER_DIAMOND ∧
    (collectDiamond r now s k).1.diamondsCollected = s.diamondsCollected + 1 := by
  obtain ⟨hspec1, hspec2⟩ := findExitPos_spec r s.grid s.playerX s.playerY SAMPLE_FUEL k ex ey k2 hF
  obtain ⟨-, -, -, -, f5, f6⟩ := collectDiamond_fields r now s k
  refine ⟨?_, ?_, ?_, f5, f6⟩
  · intro hq hrev
    simp only [collectDiamond]
    split_ifs with hcond
    · rw [revealExit_of_some r now
        { s with score := s.score + POINTS_PER_DIAMOND,
                 diamondsCollected := s.diamondsCollected + 1 } k ex ey k2 hF]
      exact ⟨rfl, rfl, rfl, hspec1, hspec2⟩
    · exact absurd ⟨hq, hrev⟩ hcond
  · intro hq hrev
    simp only [collectDiamond]
    split_ifs with hcond
    · have : s.diamondsCollected + 1 ≥ DIAMONDS_REQUIRED := hcond.1
      omega
    · exact ⟨hrev, rfl⟩
  · intro hrev
    simp only [collectDiamond]
    split_ifs with hcond
    · have : s.exitRevealed = false := hcond.2
      rw [hrev] at this
      exact absurd this (by simp)
    · exact ⟨hrev, rfl, rfl, rfl⟩

theorem collect_diamond_reveal_witness :
    (collectDiamond (fun _ => 0) 0 wStateQuota 0).1.exitRevealed = true ∧
    (collectDiamond (fun _ => 0) 0 wStateQuota 0).1.exitX = 2 ∧
    (collectDiamond (fun _ => 0) 0 wStateQuota 0).1.exitY = 2 := by
  have hx : (⌊(0 : ℚ) * ((wStateQuota.grid.width - 4 : Int) : ℚ)⌋ + 2 : Int) = 2 := by
    norm_num
  have hy : (⌊(0 : ℚ) * ((wStateQuota.grid.height - 4 : Int) : ℚ)⌋ + 2 : Int) = 2 := by
    norm_num
  have hcond : ¬((abs ((⌊(0 : ℚ) * ((wStateQuota.grid.width - 4 : Int) : ℚ)⌋ + 2) -
          wStateQuota.playerX) ≤ 2 ∧
        abs ((⌊(0 : ℚ) * ((wStateQuota.grid.height - 4 : Int) : ℚ)⌋ + 2) -
          wStateQuota.playerY) ≤ 2) ∨
      wStateQuota.grid.getTile (⌊(0 : ℚ) * ((wStateQuota.grid.width - 4 : Int) : ℚ)⌋ + 2)
        ((⌊(0 : ℚ) * ((wStateQuota.grid.height - 4 : Int) : ℚ)⌋ + 2) - 1) =
        TileType.BOULDER) := by
    rw [hx, hy]
    decide
  have hF : findExitPos (fun _ => 0) wStateQuota.grid wStateQuota.playerX
      wStateQuota.playerY SAMPLE_FUEL 0 = some (2, 2, 2) := by
    have h := findExitPos_head (fun _ => (0 : ℚ)) wStateQuota.grid wStateQuota.playerX
      wStateQuota.playerY 999 0 hcond
    have h2 : (some (⌊(0 : ℚ) * ((wStateQuota.grid.width - 4 : Int) : ℚ)⌋ + 2,
        ⌊(0 : ℚ) * ((wStateQuota.grid.height - 4 : Int) : ℚ)⌋ + 2, ((0 : Nat) + 2)) :
        Option (Int × Int × Nat)) = some (2, 2, 2) := by
      norm_num
    exact h.trans h2
  obtain ⟨hA, -, -, -, -⟩ := collect_diamond_reveal (fun _ => 0) 0 wStateQuota 0 2 2 2 hF
  obtain ⟨c1, c2, c3, -, -⟩ := hA (by decide) rfl
  exact ⟨c1, c2, c3⟩

/-! ## Reset claims -/

theorem Grid.getTile_setTile_ne (g : Grid) (u v : Int) (t : TileType) (a b : Int)
    (h : ¬(a = u ∧ b = v)) : (g.setTile u v t).getTile a b = g.getTile a b := by
  rw [Grid.getTile_setTile, if_neg (fun hc => h ⟨hc.1, hc.2.1⟩)]

theorem mem_ascRange (lo hi x : Int) : x ∈ ascRange lo hi ↔ lo ≤ x ∧ x < hi := by
  unfold ascRange
  rw [List.mem_map]
  constructor
  · rintro ⟨i, hmem, rfl⟩
    rw [List.mem_range] at hmem
    omega
  · rintro ⟨h1, h2⟩
    refine ⟨(x - lo).toNat, ?_, ?_⟩
    · rw [List.mem_range]
      omega
    · omega

theorem setBorderWalls_dims (g : Grid) :
    (setBorderWalls g).width = g.width ∧ (setBorderWalls g).height = g.height := by
  simp only [setBorderWalls]
  refine list_foldl_preserve _
      (fun gr : Grid => gr.width = g.width ∧ gr.height = g.height) _ _ ?_
      (list_foldl_preserve _
        (fun gr : Grid => gr.width = g.width ∧ gr.height = g.height) _ _ ?_ ⟨rfl, rfl⟩)
  · rintro gr y - ⟨h1, h2⟩
    simp only [Grid.width_setTile, Grid.height_setTile]
    exact ⟨h1, h2⟩
  · rintro gr x - ⟨h1, h2⟩
    simp only [Grid.width_setTile, Grid.height_setTile]
    exact ⟨h1, h2⟩

theorem setBorderWalls_width (g : Grid) : (setBorderWalls g).width = g.width :=
  (setBorderWalls_dims g).1

theorem setBorderWalls_height (g : Grid) : (setBorderWalls g).height = g.height :=
  (setBorderWalls_dims g).2

/-- The border-wall pass leaves every cell off the four border lines
unchanged. -/
theorem setBorderWalls_getTile_keep (g : Grid) (a b : Int) (ha0 : a ≠ 0)
    (haW : a ≠ g.width - 1) (hb0 : b ≠ 0) (hbH : b ≠ g.height - 1) :
    (setBorderWalls g).getTile a b = g.getTile a b := by
  simp only [setBorderWalls]
  refine (list_foldl_preserve _
      (fun gr : Grid => gr.width = g.width ∧ gr.height = g.height ∧
        gr.getTile a b = g.getTile a b) _ _ ?_
      (list_foldl_preserve _
        (fun gr : Grid => gr.width = g.width ∧ gr.height = g.height ∧
          gr.getTile a b = g.getTile a b) _ _ ?_ ⟨rfl, rfl, rfl⟩)).2.2
  · rintro gr y - ⟨h1, h2, h3⟩
    refine ⟨?_, ?_, ?_⟩
    · simp only [Grid.width_setTile]; exact h1
    · simp only [Grid.height_setTile]; exact h2
    · rw [Grid.getTile_write2_ne gr 0 y TileType.WALL (gr.width - 1) y TileType.WALL a b
        (fun h => ha0 h.1) (fun h => haW (by rw [h.1, h1]))]
      exact h3
  · rintro gr x - ⟨h1, h2, h3⟩
    refine ⟨?_, ?_, ?_⟩
    · simp only [Grid.width_setTile]; exact h1
    · simp only [Grid.height_setTile]; exact h2
    · rw [Grid.getTile_write2_ne gr x 0 TileType.WALL x (gr.height - 1) TileType.WALL a b
        (fun h => hb0 h.2) (fun h => hbH (by rw [h.2, h2]))]
      exact h3

/-- Under the stream `wR`, once the cursor has passed the two spawn
draws, every terrain draw is `9/10`, so the dirt/boulder loop writes
nothing: the grid comes out unchanged and the cursor stays `≥ 2`. -/
theorem terrain_fold_const (px py : Int) (l : List (Int × Int)) (G : Grid) (k0 : Nat)
    (hk : 2 ≤ k0) :
    (l.foldl (fun gk p => terrainCell wR px py gk p.1 p.2) (G, k0)).1 = G ∧
      2 ≤ (l.foldl (fun gk p => terrainCell wR px py gk p.1 p.2) (G, k0)).2 := by
  refine list_foldl_preserve _ (fun gk : Grid × Nat => gk.1 = G ∧ 2 ≤ gk.2) _ _ ?_ ⟨rfl, hk⟩
  rintro gk p - ⟨h1, h2⟩
  unfold terrainCell
  split_ifs with hbox hd1 hd2
  · exact ⟨h1, h2⟩
  · exfalso
    have hw : wR gk.2 = 9/10 := by
      unfold wR
      rw [if_neg (show ¬gk.2 ≤ 1 by omega)]
    rw [hw] at hd1
    norm_num at hd1
  · exfalso
    have hw : wR (gk.2 + 1) = 9/10 := by
      unfold wR
      rw [if_neg (show ¬gk.2 + 1 ≤ 1 by omega)]
    rw [hw] at hd2
    norm_num at hd2
  · exact ⟨h1, by dsimp only; omega⟩

theorem terrain_fold_fst (px py : Int) (l : List (Int × Int)) (G : Grid) (k0 : Nat)
    (hk : 2 ≤ k0) :
    (l.foldl (fun gk p => terrainCell wR px py gk p.1 p.2) (G, k0)).1 = G :=
  (terrain_fold_const px py l G k0 hk).1

theorem terrain_fold_cursor (px py : Int) (l : List (Int × Int)) (G : Grid) (k0 : Nat)
    (hk : 2 ≤ k0) :
    2 ≤ (l.foldl (fun gk p => terrainCell wR px py gk p.1 p.2) (G, k0)).2 :=
  (terrain_fold_const px py l G k0 hk).2

/-- Under `wR`, with the player spawned at `(2, 2)` on a 100×60 grid,
the diamond-position sampler accepts its first draw: `(89, 53)`. -/
theorem sampleDiamondPos_wR (fuel k : Nat) (hk : 2 ≤ k) :
    sampleDiamondPos wR 100 60 2 2 (fuel + 1) k = (some (89, 53), k + 2) := by
  rw [sampleDiamondPos]
  have h1 : wR k = 9/10 := by
    unfold wR
    rw [if_neg (show ¬k ≤ 1 by omega)]
  have h2 : wR (k + 1) = 9/10 := by
    unfold wR
    rw [if_neg (show ¬k + 1 ≤ 1 by omega)]
  simp only [h1, h2]
  have hx : (⌊(9/10 : ℚ) * (((100 : Int) - 2 : Int) : ℚ)⌋ + 1 : Int) = 89 := by norm_num
  have hy : (⌊(9/10 : ℚ) * (((60 : Int) - 2 : Int) : ℚ)⌋ + 1 : Int) = 53 := by norm_num
  rw [hx, hy]
  split_ifs with hc
  · exact absurd hc (by decide)
  · rfl

/-- One diamond placement under `wR` with spawn `(2, 2)` on a 100×60
grid: writes `(89, 53)`, so the dimensions, the cell `(50, 30)` and the
cursor bound are preserved. -/
theorem placeDiamond_pres (gk : Grid × Nat) (hw : gk.1.width = 100)
    (hh : gk.1.height = 60) (hk : 2 ≤ gk.2) :
    (placeDiamond wR 2 2 gk).1.width = 100 ∧
      (placeDiamond wR 2 2 gk).1.height = 60 ∧
      (placeDiamond wR 2 2 gk).1.getTile 50 30 = gk.1.getTile 50 30 ∧
      2 ≤ (placeDiamond wR 2 2 gk).2 := by
  unfold placeDiamond
  have hs : sampleDiamondPos wR gk.1.width gk.1.height 2 2 SAMPLE_FUEL gk.2 =
      (some (89, 53), gk.2 + 2) := by
    rw [hw, hh]
    exact sampleDiamondPos_wR 999 gk.2 hk
  rw [hs]
  refine ⟨?_, ?_, ?_, ?_⟩
  · show (gk.1.setTile 89 53 TileType.DIAMOND).width = 100
    rw [Grid.width_setTile]
    exact hw
  · show (gk.1.setTile 89 53 TileType.DIAMOND).height = 60
    rw [Grid.height_setTile]
    exact hh
  · show (gk.1.setTile 89 53 TileType.DIAMOND).getTile 50 30 = gk.1.getTile 50 30
    exact Grid.getTile_setTile_ne gk.1 89 53 TileType.DIAMOND 50 30 (by decide)
  · show 2 ≤ gk.2 + 2
    omega

/-- The 38 diamond placements leave `(50, 30)` unchanged. -/
theorem diamond_fold_getTile (n : Nat) (q : Grid × Nat) (hw : q.1.width = 100)
    (hh : q.1.height = 60) (hk : 2 ≤ q.2) :
    ((List.range n).foldl (fun gk _ => placeDiamond wR 2 2 gk) q).1.getTile 50 30 =
      q.1.getTile 50 30 := by
  refine (list_foldl_preserve _
    (fun p : Grid × Nat => p.1.width = 100 ∧ p.1.height = 60 ∧
      p.1.getTile 50 30 = q.1.getTile 50 30 ∧ 2 ≤ p.2) _ _ ?_ ⟨hw, hh, rfl, hk⟩).2.2.1
  rintro p u - ⟨p1, p2, p3, p4⟩
  obtain ⟨c1, c2, c3, c4⟩ := placeDiamond_pres p p1 p2 p4
  exact ⟨c1, c2, c3.trans p3, c4⟩

/-- Clearing the 3×3 spawn box around `(2, 2)` leaves `(50, 30)`
unchanged. -/
theorem clearSpawnArea_getTile (g : Grid) :
    (clearSpawnArea g 2 2).getTile 50 30 = g.getTile 50 30 := by
  unfold clearSpawnArea
  refine list_foldl_preserve _
    (fun gr : Grid => gr.getTile 50 30 = g.getTile 50 30) _ _ ?_ rfl
  rintro gr dy hdy hgr
  dsimp only
  refine list_foldl_preserve _
    (fun gr2 : Grid => gr2.getTile 50 30 = g.getTile 50 30) _ _ ?_ hgr
  rintro gr2 dx hdx hgr2
  dsimp only
  rw [Grid.getTile_setTile_ne]
  · exact hgr2
  · rw [mem_ascRange] at hdx
    rintro ⟨h50, -⟩
    omega

/-- Running `initializeLevel` on a 100×60 grid with the stream `wR`
leaves the interior cell `(50, 30)` exactly as it was: the generation
pass never touches it. -/
theorem initializeLevel_getTile_keep (s : GameState)
    (hw : s.grid.width = 100) (hh : s.grid.height = 60) :
    (initializeLevel wR s 0).1.grid.getTile 50 30 = s.grid.getTile 50 30 := by
  have hbw := setBorderWalls_getTile_keep s.grid 50 30 (by decide) (by rw [hw]; decide)
    (by decide) (by rw [hh]; decide)
  have hbw1 := setBorderWalls_width s.grid
  have hbw2 := setBorderWalls_height s.grid
  have hPX : (⌊wR 0 * (((setBorderWalls s.grid).width - 4 : Int) : ℚ)⌋ + 2 : Int) = 2 := by
    rw [hbw1, hw]
    norm_num [wR]
  have hPY : (⌊wR (0 + 1) * (((setBorderWalls s.grid).height - 4 : Int) : ℚ)⌋ + 2 : Int) = 2 := by
    rw [hbw2, hh]
    norm_num [wR]
  simp only [initializeLevel, updateCameraPosition]
  rw [hPX, hPY]
  rw [clearSpawnArea_getTile]
  rw [diamond_fold_getTile]
  · rw [terrain_fold_fst]
    · exact hbw
    · omega
  · rw [terrain_fold_fst]
    · rw [hbw1, hw]
    · omega
  · rw [terrain_fold_fst]
    · rw [hbw2, hh]
    · omega
  · exact terrain_fold_cursor 2 2 _ _ _ (by omega)

/-- A full `resetGame` on a 100×60 grid with stream `wR` and the player
at `(1, 1)` leaves the cell `(50, 30)` exactly as the old session left
it. -/
theorem resetGame_getTile_keep (g : Grid) (hw : g.width = 100) (hh : g.height = 60) :
    (resetGame wR (mkState g 1 1) 0).1.grid.getTile 50 30 = g.getTile 50 30 := by
  simp only [resetGame, mkState]
  rw [initializeLevel_getTile_keep]
  · rw [Grid.getTile_setTile_ne]
    decide
  · rw [Grid.width_setTile]
    exact hw
  · rw [Grid.height_setTile]
    exact hh

/-- C3 (counterexample to the freshness part): resetting a session whose
grid still holds the old revealed `EXIT` at `(50, 30)` — under a random
stream that spawns the player at `(2, 2)`, never lets a terrain draw hit
either threshold, and puts all 38 diamonds at `(89, 53)` — leaves the
stale `EXIT` in the new grid.  Resetting the same session with an empty
grid under the same stream leaves `(50, 30)` `EMPTY`: the post-reset
content of the cell is NOT determined by the new generation alone, the
old tile survives. -/
theorem reset_stale_exit_survives :
    (resetGame wR (mkState wStaleGrid 1 1) 0).1.grid.getTile 50 30 = TileType.EXIT ∧
      (resetGame wR (mkState wGridEmpty100 1 1) 0).1.grid.getTile 50 30 =
        TileType.EMPTY := by
  constructor
  · rw [resetGame_getTile_keep wStaleGrid rfl rfl]
    decide
  · rw [resetGame_getTile_keep wGridEmpty100 rfl rfl]
    decide

/-- C3 (amended): after `resetGame`, score and diamond count are `0`,
the game-over and game-won flags are cleared, and the player is placed
by the initial spawn rule `(⌊rand·(width−4)⌋+2, ⌊rand·(height−4)⌋+2)`.
The grid, however, is regenerated in place and is not entirely fresh:
interior cells whose terrain draws miss both thresholds keep their
previous contents (see the counterexample above). -/
theorem reset_scalars_and_spawn (r : Nat → ℚ) (s : GameState) (k : Nat) :
    (resetGame r s k).1.score = 0 ∧
      (resetGame r s k).1.diamondsCollected = 0 ∧
      (resetGame r s k).1.gameOver = false ∧
      (resetGame r s k).1.gameWon = false ∧
      (resetGame r s k).1.playerX = ⌊r k * ((s.grid.width - 4 : Int) : ℚ)⌋ + 2 ∧
      (resetGame r s k).1.playerY = ⌊r (k + 1) * ((s.grid.height - 4 : Int) : ℚ)⌋ + 2 := by
  simp only [resetGame, initializeLevel, updateCameraPosition]
  refine ⟨trivial, trivial, trivial, trivial, ?_, ?_⟩
  · rw [setBorderWalls_width, Grid.width_setTile]
  · rw [setBorderWalls_height, Grid.height_setTile]
